import Mathlib

/-!
A shallow embedding, in Lean 4, of the planner and executor-support code of the
kaniko container-image builder (packages `pkg/dockerfile`, `pkg/config`,
`pkg/commands`, `pkg/warmer`, `cmd/runner`), together with theorems settling a
fixed list of claims about that code.

Conventions of the embedding:
* Go errors are modelled by the inductive `GoError`; fallible Go functions
  return `Except GoError α`.  A Go runtime panic (e.g. slice index out of
  range) is modelled by the distinguished constructor `GoError.runtimePanic`.
* Go byte strings are modelled by `String`/`List Char`; all characters the
  embedded code inspects are ASCII, where Go's byte-wise indexing and the
  character-wise view agree.
* The process environment (`os.LookupEnv`) is modelled by a function
  `String → Option String` passed explicitly.
* External collaborators that the embedded functions call (the BuildKit
  command parser, the registry client, shell-style variable expansion, the
  SHA-256 primitive) are modelled as explicit oracle parameters; the embedded
  control flow around them follows the Go source.
-/

/-- Model of a Go `error` value.  `wrap` models `fmt.Errorf` with the `%w`
verb (which keeps the wrapped error reachable through the chain), `exitError`
models `*exec.ExitError` carrying the child's wait status, and `runtimePanic`
models a Go runtime panic such as an out-of-range slice index. -/
inductive GoError where
  | goError (msg : String)
  | wrap (msg : String) (inner : GoError)
  | exitError (status : Nat)
  | runtimePanic (msg : String)
  deriving Repr, DecidableEq

/-- `strconv.ParseBool`: accepts exactly 1, t, T, TRUE, true, True,
0, f, F, FALSE, false, False; anything else is an error (`none`). -/
def goParseBool (s : String) : Option Bool :=
  if s ∈ ["1", "t", "T", "TRUE", "true", "True"] then some true
  else if s ∈ ["0", "f", "F", "FALSE", "false", "False"] then some false
  else none

/-- `config.EnvBoolDefault` (pkg/config/options.go): look the key up in the
environment; return the default when unset or when `strconv.ParseBool`
rejects the value. -/
def EnvBoolDefault (env : String → Option String) (key : String) (dflt : Bool) : Bool :=
  match env key with
  | none => dflt
  | some val =>
    match goParseBool val with
    | none => dflt
    | some ok => ok

/-- `config.EnvBool` (pkg/config/options.go). -/
def EnvBool (env : String → Option String) (key : String) : Bool :=
  EnvBoolDefault env key false

/-! ## Meta-arg quote stripping (pkg/dockerfile/dockerfile.go) -/

/-- The `leader` computed by `extractValFromQuotes`: a single unescaped quote
byte, an escaped quote (backslash followed by a quote), or empty. -/
def quoteLeader : List Char → List Char
  | [] => []
  | c :: rest =>
    if c = '\'' ∨ c = '"' then [c]
    else if c = '\\' then
      match rest with
      | c2 :: _ => if c2 = '\'' ∨ c2 = '"' then ['\\', c2] else []
      | [] => []
    else []

/-- The `tail` computed by `extractValFromQuotes`: when the leader is short,
the last byte if it is a quote; otherwise the last two bytes if they are an
escaped quote. -/
def quoteTail (leaderLen : Nat) (val : List Char) : List Char :=
  if leaderLen < 2 then
    match val.getLast? with
    | some c => if c = '\'' ∨ c = '"' then [c] else []
    | none => []
  else
    match val.reverse with
    | c :: b :: _ => if b = '\\' ∧ (c = '\'' ∨ c = '"') then [b, c] else []
    | _ => []

/-- The comparison-and-strip tail of `extractValFromQuotes`, abstracted over
the computed leader and tail markers. -/
def extractValAux (val leader tail : List Char) : Except GoError (List Char) :=
  if leader ≠ tail then .error (.goError "quotes wrapping arg values must be matched")
  else if leader = [] then .ok val
  else if leader.length = 2 then .ok val
  else .ok ((val.drop 1).dropLast)

/-- `dockerfile.extractValFromQuotes`: strip one pair of matching unescaped
enclosing quotes from a meta-arg value; leave escaped quotes in place; error
when the leading and trailing quote markers do not match. -/
def extractValFromQuotes (val : List Char) : Except GoError (List Char) :=
  if val.length < 2 then .ok val
  else extractValAux val (quoteLeader val) (quoteTail (quoteLeader val).length val)

/-! ## Build-arg unification (pkg/dockerfile/dockerfile.go) -/

/-- The `Args` field of one `instructions.ArgCommand`: key/value pairs where
the value is optional. -/
abbrev ArgCommand := List (String × Option String)

/-- Assignment into a Go `map[string]string`, modelled on an association list
that keeps one entry per key (update in place, insert at the end). -/
def mapSet (m : List (String × String)) (k v : String) : List (String × String) :=
  if m.any (fun p => p.1 = k) then m.map (fun p => if p.1 = k then (k, v) else p)
  else m ++ [(k, v)]

/-- Lookup in the association-list model of a Go map. -/
def mapGet (m : List (String × String)) (k : String) : Option String :=
  (m.find? (fun p => p.1 = k)).map (·.2)

/-- One meta-arg declaration folded into the args map: a `nil`-valued
declaration contributes nothing. -/
def metaArgStep (m : List (String × String)) (arg : String × Option String) :
    List (String × String) :=
  match arg.2 with
  | some v => mapSet m arg.1 v
  | none => m

/-- Splitting a byte string on every occurrence of a separator character,
as Go's `strings.Split` does for a one-byte separator. -/
def goSplitOnChar (sep : Char) : List Char → List (List Char)
  | [] => [[]]
  | c :: rest =>
    if c = sep then [] :: goSplitOnChar sep rest
    else
      match goSplitOnChar sep rest with
      | r :: rs => (c :: r) :: rs
      | [] => [[c]]

/-- `strings.Split(a, "=")`. -/
def goSplitEq (a : String) : List String :=
  (goSplitOnChar '=' a.data).map (fun l => ⟨l⟩)

/-- One `--build-arg` entry folded into the args map: the entry is split on
every `=` and contributes only when the second segment is non-empty. -/
def buildArgStep (m : List (String × String)) (a : String) : List (String × String) :=
  match goSplitEq a with
  | k :: v :: _ => if v = "" then m else mapSet m k v
  | _ => m

/-- The map built by `dockerfile.unifyArgs` before formatting: meta-arg
defaults first, then the `--build-arg` entries. -/
def unifyArgsMap (metaArgs : List ArgCommand) (buildArgs : List String) :
    List (String × String) :=
  let argsMap := metaArgs.foldl (fun m marg => marg.foldl metaArgStep m) []
  buildArgs.foldl buildArgStep argsMap

/-- `dockerfile.unifyArgs`: the unified `K=V` list fed to argument
resolution.  (Go iterates its map in a nondeterministic order; the model
fixes insertion order, which no claim depends on.) -/
def unifyArgs (metaArgs : List ArgCommand) (buildArgs : List String) : List String :=
  (unifyArgsMap metaArgs buildArgs).map (fun p => p.1 ++ "=" ++ p.2)

/-- What one `--build-arg` entry contributes for key `K` under the source's
split-on-every-`=` rule: the second segment, when the first segment is `K`
and the second is non-empty. -/
def buildArgContrib (K : String) (a : String) : Option String :=
  match goSplitEq a with
  | k :: v :: _ => if k = K ∧ v ≠ "" then some v else none
  | _ => none

/-- The last contributing `--build-arg` value for key `K`. -/
def clVal (buildArgs : List String) (K : String) : Option String :=
  buildArgs.reverse.findSome? (buildArgContrib K)

/-- The last declared meta-arg default for key `K` (a `nil`-valued
declaration contributes nothing and does not erase earlier defaults). -/
def metaVal (metaArgs : List ArgCommand) (K : String) : Option String :=
  (metaArgs.flatMap id).reverse.findSome?
    (fun arg => if arg.1 = K then arg.2 else none)

def buildArgSkipped (a : String) : Prop :=
  match goSplitEq a with
  | _ :: v :: _ => v = ""
  | _ => True

/-! ## The planner data model (pkg/dockerfile/dockerfile.go) -/

/-- A parsed Dockerfile instruction, restricted to the constructors the
planner inspects: `instructions.CopyCommand` (with its `From` flag),
`instructions.OnbuildCommand` (with its `Expression`), and everything else. -/
inductive Command where
  | copyCmd (fromArg : String)
  | onbuildCmd (expression : String)
  | otherCmd (text : String)
  deriving Repr, DecidableEq

/-- `instructions.Stage`, restricted to the fields the planner reads or
writes (`Location` and `Comments` metadata are omitted). -/
structure Stage where
  name : String
  baseName : String
  platform : String
  commands : List Command
  origCmd : String
  docComment : String
  sourceCode : String
  deriving Repr, DecidableEq

/-- The Go zero value of `instructions.Stage`. -/
instance : Inhabited Stage := ⟨⟨"", "", "", [], "", "", ""⟩⟩

/-- `config.KanikoStage`. -/
structure KanikoStage where
  stage : Stage
  baseImageIndex : Int
  baseImageStoredLocally : Bool
  saveStage : Bool
  final : Bool
  metaArgs : List ArgCommand
  index : Nat
  deriving Repr, DecidableEq

/-- The Go zero value of `config.KanikoStage` (unprocessed slots of the
`kanikoStages` slice keep this value). -/
instance : Inhabited KanikoStage := ⟨⟨default, 0, false, false, false, [], 0⟩⟩

/-- The fields of `config.KanikoOptions` that `MakeKanikoStages` reads. -/
structure KanikoOptions where
  target : String
  buildArgs : List String
  skipUnusedStages : Bool

/-- External collaborators of the planner: the process environment, the
argument resolver (`util.ResolveEnvironmentReplacement`), the registry
(`remote.RetrieveRemoteImage` followed by `ConfigFile`, yielding the base
image's `ONBUILD` list), and the BuildKit command parser used by
`ParseCommands` on a non-empty command array. -/
structure PlannerWorld where
  env : String → Option String
  resolveEnv : String → List String → Except GoError String
  remoteOnBuild : String → Except GoError (List String)
  parseOnBuild : List String → Except GoError (List Command)

/-- Modelled from the spec: `constants.NoBaseImage`, the `scratch` base-image
name (the constants package is not among the provided sources; the spec's
data model calls this base `Scratch`). -/
def NoBaseImage : String := "scratch"

/-- `strings.ToLower` (the embedded code only compares ASCII names, where
Go's Unicode lowering and `Char.toLower` agree). -/
def toLowerStr (s : String) : String := ⟨s.data.map Char.toLower⟩

/-- `strings.EqualFold` on the ASCII stage names the planner compares. -/
def equalFold (a b : String) : Bool := toLowerStr a == toLowerStr b

/-- Loop body of `dockerfile.baseImageIndex`. -/
def baseImageIndexAux (currentStageBaseName : String) (currentStage : Nat) :
    Nat → List Stage → Int
  | _, [] => -1
  | i, stage :: rest =>
    if i ≥ currentStage then -1
    else if stage.name = currentStageBaseName then Int.ofNat i
    else baseImageIndexAux currentStageBaseName currentStage (i + 1) rest

/-- `dockerfile.baseImageIndex`: the index of the earlier stage the current
stage is built from, `-1` when the base is not a previous stage. -/
def baseImageIndex (currentStage : Nat) (stages : List Stage) : Int :=
  baseImageIndexAux (toLowerStr ((stages.getD currentStage default).baseName))
    currentStage 0 stages

/-- `dockerfile.saveStage`: whether some later stage's (lowered) base name
equals the current stage's name. -/
def saveStage (index : Nat) (stages : List Stage) : Bool :=
  let currentStageName := (stages.getD index default).name
  (List.range stages.length).any fun stageIndex =>
    if stageIndex ≤ index then false
    else
      let stage := stages.getD stageIndex default
      (toLowerStr stage.baseName == currentStageName) && (stage.baseName != "")

/-- `dockerfile.targetStage`: the index of the stage to build; the last stage
when no target is given (`-1` for an empty stage list, as in Go), matching
the target name case-insensitively otherwise. -/
def targetStage (stages : List Stage) (target : String) : Except GoError Int :=
  if target = "" then .ok (Int.ofNat stages.length - 1)
  else
    match (List.range stages.length).find?
        (fun i => equalFold ((stages.getD i default).name) target) with
    | some i => .ok (Int.ofNat i)
    | none => .error (.goError (target ++ " is not a valid target build stage"))

/-- `dockerfile.resolveStagesArgs`: resolve every stage's base name against
the unified argument list. -/
def resolveStagesArgs (w : PlannerWorld) (stages : List Stage) (args : List String) :
    Except GoError (List Stage) :=
  stages.mapM fun s =>
    match w.resolveEnv s.baseName args with
    | .ok resolvedBaseName => .ok { s with baseName := resolvedBaseName }
    | .error e => .error (.wrap ("resolving base name " ++ s.baseName) e)

/-- `dockerfile.getOnBuild`: the `Expression`s of the `ONBUILD` declarations
in a command list. -/
def getOnBuild (cmds : List Command) : List String :=
  cmds.filterMap fun c =>
    match c with
    | .onbuildCmd e => some e
    | _ => none

/-- `dockerfile.filterOnBuild`: a command list with the `ONBUILD`
declarations removed. -/
def filterOnBuild (cmds : List Command) : List Command :=
  cmds.filter fun c =>
    match c with
    | .onbuildCmd _ => false
    | _ => true

/-- `dockerfile.ParseCommands`: the empty array parses to the empty list
without consulting the parser. -/
def ParseCommands (w : PlannerWorld) (cmdArray : List String) :
    Except GoError (List Command) :=
  if cmdArray = [] then .ok []
  else w.parseOnBuild cmdArray

/-- `dockerfile.squash`: merge base stage `a` into consumer stage `b`. -/
def squash (a b : KanikoStage) : KanikoStage :=
  let acmds := filterOnBuild a.stage.commands
  { stage :=
      { name := b.stage.name
        commands := acmds ++ b.stage.commands
        origCmd := a.stage.origCmd
        baseName := a.stage.baseName
        platform := a.stage.platform
        docComment := a.stage.docComment ++ b.stage.docComment
        sourceCode := a.stage.sourceCode ++ "\n" ++ b.stage.sourceCode }
    baseImageIndex := a.baseImageIndex
    final := b.final
    baseImageStoredLocally := a.baseImageStoredLocally
    saveStage := b.saveStage
    metaArgs := a.metaArgs ++ b.metaArgs
    index := b.index }

/-- The `stageByName` map built by `MakeKanikoStages` (keys are the non-empty
stage names, a later stage with the same name overwriting an earlier one),
as a lookup function. -/
def stageByNameLookup (stages : List Stage) (key : String) : Option Nat :=
  (List.range stages.length).foldl
    (fun acc idx =>
      let s := stages.getD idx default
      if s.name ≠ "" ∧ s.name = key then some idx else acc)
    none

/-- `strconv.Atoi`: optional sign, at least one decimal digit, 64-bit range;
out-of-range input is an error (Go returns a range error alongside the
clamped value, and the planner only uses the value when the error is nil). -/
def goAtoi (s : String) : Option Int :=
  let signAndDigits : Bool × List Char :=
    match s.data with
    | '+' :: rest => (false, rest)
    | '-' :: rest => (true, rest)
    | chars => (false, chars)
  let digits := signAndDigits.2
  if digits = [] ∨ ¬ digits.all (fun c => '0' ≤ c ∧ c ≤ '9') then none
  else
    let mag : Nat := digits.foldl (fun n c => n * 10 + (c.toNat - '0'.toNat)) 0
    let n : Int := if signAndDigits.1 then -(Int.ofNat mag) else Int.ofNat mag
    if n < -(2 ^ 63) ∨ 2 ^ 63 - 1 < n then none else some n

/-- A Go slice increment `a[i]++` at a possibly out-of-range index: the
in-range case updates, the out-of-range case is the runtime panic Go raises. -/
def incAt (a : List Nat) (i : Int) : Except GoError (List Nat) :=
  if 0 ≤ i ∧ i.toNat < a.length then .ok (a.set i.toNat (a.getD i.toNat 0 + 1))
  else .error (.runtimePanic "index out of range")

/-- A Go slice write `a[i] = v` at a possibly out-of-range index. -/
def setAt (a : List Nat) (i : Int) (v : Nat) : Except GoError (List Nat) :=
  if 0 ≤ i ∧ i.toNat < a.length then .ok (a.set i.toNat v)
  else .error (.runtimePanic "index out of range")

/-- The `COPY --from` reference-counting loop of `MakeKanikoStages`: a
`--from` value that `strconv.Atoi` accepts increments `copyDependencies` at
that numeric index (panicking when it is out of range, as the Go slice
indexing does); otherwise the lowered value is looked up among the stage
names; a value matching neither contributes nothing. -/
def countCopyRefs (stages : List Stage) (copyDeps : List Nat) (cmds : List Command) :
    Except GoError (List Nat) :=
  cmds.foldlM
    (fun arr c =>
      match c with
      | .copyCmd fromArg =>
        match goAtoi fromArg with
        | some copyFromIndex => incAt arr copyFromIndex
        | none =>
          match stageByNameLookup stages (toLowerStr fromArg) with
          | some copyFromIndex => incAt arr (Int.ofNat copyFromIndex)
          | none => .ok arr
      | _ => .ok arr)
    copyDeps

/-- The mutable state of the `MakeKanikoStages` main loop. -/
structure PlanState where
  kanikoStages : List KanikoStage
  stagesDependencies : List Nat
  copyDependencies : List Nat
  deriving Repr, DecidableEq

/-- One iteration (stage index `i`) of the descending main loop of
`MakeKanikoStages`: skip an unreferenced stage when pruning is on; otherwise
resolve the base's `ONBUILD` commands, prepend them, count base and copy
references, and record the `config.KanikoStage`. -/
def processStage (w : PlannerWorld) (opts : KanikoOptions) (stages : List Stage)
    (metaArgs : List ArgCommand) (targetIdx : Nat) (st : PlanState) (i : Nat) :
    Except GoError PlanState :=
  if st.stagesDependencies.getD i 0 = 0 ∧ st.copyDependencies.getD i 0 = 0 ∧
      opts.skipUnusedStages then
    .ok st
  else
    let stage := stages.getD i default
    let bIdx := baseImageIndex i stages
    let onBuildE : Except GoError (List String) :=
      if stage.baseName = NoBaseImage then .ok []
      else if bIdx ≠ -1 then .ok (getOnBuild ((stages.getD bIdx.toNat default).commands))
      else w.remoteOnBuild stage.baseName
    match onBuildE with
    | .error e => .error e
    | .ok onBuild =>
      match ParseCommands w onBuild with
      | .error e => .error (.wrap "failed to parse ONBUILD instructions" e)
      | .ok cmds =>
        let stage := { stage with commands := cmds ++ stage.commands }
        let stE : Except GoError PlanState :=
          if opts.skipUnusedStages then
            match
              (if bIdx ≠ -1 then incAt st.stagesDependencies bIdx
               else .ok st.stagesDependencies) with
            | .error e => .error e
            | .ok deps =>
              match countCopyRefs stages st.copyDependencies stage.commands with
              | .error e => .error e
              | .ok copies =>
                .ok { st with stagesDependencies := deps, copyDependencies := copies }
          else .ok st
        match stE with
        | .error e => .error e
        | .ok st2 =>
          let ks : KanikoStage :=
            { stage := stage
              baseImageIndex := bIdx
              baseImageStoredLocally := bIdx ≠ -1
              saveStage := saveStage i stages
              final := i = targetIdx
              metaArgs := metaArgs
              index := i }
          .ok { st2 with kanikoStages := st2.kanikoStages.set i ks }

/-- One iteration of the squash pass of `MakeKanikoStages`: a surviving stage
whose base is stored locally with exactly one stage reference and no copy
reference absorbs that base; the base's stage-reference count is zeroed. -/
def squashStep (copyDeps : List Nat) (st : List KanikoStage × List Nat) (i : Nat) :
    List KanikoStage × List Nat :=
  let ks := st.1
  let deps := st.2
  let s := ks.getD i default
  if 0 < deps.getD i 0 then
    if s.baseImageStoredLocally = true ∧ deps.getD s.baseImageIndex.toNat 0 = 1 ∧
        copyDeps.getD s.baseImageIndex.toNat 0 = 0 then
      let sb := ks.getD s.baseImageIndex.toNat default
      (ks.set i (squash sb s), deps.set s.baseImageIndex.toNat 0)
    else st
  else st

/-- The stage indices kept by the final compaction loop of
`MakeKanikoStages`. -/
def keptIndices (n : Nat) (deps copyDeps : List Nat) : List Nat :=
  (List.range n).filter fun i =>
    decide (0 < deps.getD i 0) || decide (0 < copyDeps.getD i 0)

/-- The final compaction loop of `MakeKanikoStages`: keep the stages with a
positive reference count, resetting `SaveStage` to "has stage references". -/
def compactStages (ks : List KanikoStage) (deps copyDeps : List Nat) :
    List KanikoStage :=
  (keptIndices ks.length deps copyDeps).map fun i =>
    { ks.getD i default with saveStage := decide (0 < deps.getD i 0) }

/-- The front part of `MakeKanikoStages`: target selection, argument
unification and resolution, truncation, and the descending main loop. -/
def planAndCount (w : PlannerWorld) (opts : KanikoOptions) (stages : List Stage)
    (metaArgs : List ArgCommand) : Except GoError (Int × PlanState) := do
  let targetIdx ←
    match targetStage stages opts.target with
    | .ok t => pure t
    | .error e => throw (.wrap "error finding target stage" e)
  let args := unifyArgs metaArgs opts.buildArgs
  let stages ←
    match resolveStagesArgs w stages args with
    | .ok s => pure s
    | .error e => throw (.wrap "resolving args" e)
  let stages := stages.take (targetIdx + 1).toNat
  let kanikoStages : List KanikoStage := List.replicate stages.length default
  let stagesDependencies ←
    setAt (List.replicate stages.length 0) targetIdx 1
  let copyDependencies : List Nat := List.replicate stages.length 0
  let st ← ((List.range (targetIdx + 1).toNat).reverse).foldlM
    (processStage w opts stages metaArgs targetIdx.toNat)
    ⟨kanikoStages, stagesDependencies, copyDependencies⟩
  pure (targetIdx, st)

/-- The back part of `MakeKanikoStages`: the squash pass (when pruning and
the `FF_KANIKO_SQUASH_STAGES` feature flag are both on) followed by the
compaction loop (when pruning is on); returns the stage list together with
the final reference-count vectors. -/
def finishStages (env : String → Option String) (opts : KanikoOptions)
    (st : PlanState) : List KanikoStage × List Nat × List Nat :=
  let squashed :=
    if opts.skipUnusedStages ∧ EnvBoolDefault env "FF_KANIKO_SQUASH_STAGES" true then
      (List.range st.kanikoStages.length).foldl (squashStep st.copyDependencies)
        (st.kanikoStages, st.stagesDependencies)
    else (st.kanikoStages, st.stagesDependencies)
  if opts.skipUnusedStages then
    (compactStages squashed.1 squashed.2 st.copyDependencies, squashed.2,
      st.copyDependencies)
  else (squashed.1, squashed.2, st.copyDependencies)

/-- `dockerfile.MakeKanikoStages`, with the final reference-count vectors
exposed alongside the stage list. -/
def makeKanikoStagesFull (w : PlannerWorld) (opts : KanikoOptions)
    (stages : List Stage) (metaArgs : List ArgCommand) :
    Except GoError (List KanikoStage × List Nat × List Nat) := do
  let (_, st) ← planAndCount w opts stages metaArgs
  pure (finishStages w.env opts st)

/-- `dockerfile.MakeKanikoStages`. -/
def MakeKanikoStages (w : PlannerWorld) (opts : KanikoOptions)
    (stages : List Stage) (metaArgs : List ArgCommand) :
    Except GoError (List KanikoStage) :=
  (makeKanikoStagesFull w opts stages metaArgs).map (·.1)

/-- A planner environment with an empty process environment, identity
argument resolution, and remote images carrying no `ONBUILD` commands
(sufficient for the concrete Dockerfiles evaluated below). -/
def trivialWorld : PlannerWorld :=
  { env := fun _ => none
    resolveEnv := fun s _ => .ok s
    remoteOnBuild := fun _ => .ok []
    parseOnBuild := fun _ => .ok [] }

/-- Follows the spec's words (claim C1) and is compared with the code: stage
`later` references stage `target` via `COPY --from` by index (the decimal
index) or by name (case-insensitively). -/
def referencesViaCopyFromB (later target : KanikoStage) : Bool :=
  later.stage.commands.any fun c =>
    match c with
    | .copyCmd f => f == toString target.index || toLowerStr f == target.stage.name
    | _ => false

/-- Follows the spec's words (claim C1) and is compared with the code: every
emitted stage has `save-stage` set exactly when a later emitted stage
references it via `COPY --from`. -/
def saveStageIffCopyReferencedB (res : List KanikoStage) : Bool :=
  res.all fun s =>
    s.saveStage == res.any fun t => decide (s.index < t.index) && referencesViaCopyFromB t s

/-- The base stage of the squash counterexample: stage 0, used as FROM base
by exactly one stage (`stage_refs = 1`, `copy_refs = 0`). -/
def c3Base : KanikoStage :=
  ⟨⟨"b", "alpine", "", [Command.otherCmd "A"], "", "", ""⟩, -1, false, true, false, [], 0⟩

/-- The consumer stage of the squash counterexample: stage 1, whose base is
the locally stored stage 0, and which survives only through a `COPY --from`
reference (`stage_refs = 0`, `copy_refs = 1`). -/
def c3Consumer : KanikoStage :=
  ⟨⟨"s", "b", "", [Command.otherCmd "B"], "", "", ""⟩, 0, true, false, false, [], 1⟩

/-- The three-stage Dockerfile of the squash counterexample:
`FROM alpine AS b / FROM b AS s / FROM scratch + COPY --from=1`. -/
def c3PipelineStages : List Stage :=
  [⟨"b", "alpine", "", [Command.otherCmd "A"], "", "", ""⟩,
   ⟨"s", "b", "", [Command.otherCmd "B"], "", "", ""⟩,
   ⟨"", "scratch", "", [Command.copyCmd "1"], "", "", ""⟩]

deriving instance DecidableEq for Except

/-! ## RUN exit-status propagation (unnamed commands file; cmd/runner/main.go) -/

/-- The result of `runCommandInExec` as a function of the child's exit
status: `cmd.Wait` returns nil for exit status 0 and an `*exec.ExitError`
carrying the status otherwise, which `runCommandInExec` wraps with
`fmt.Errorf("waiting for process to exit: %w", err)` — the `%w` verb keeps
the exit error reachable through the chain. -/
def runCommandInExecResult (childExit : Nat) : Option GoError :=
  if childExit = 0 then none
  else some (.wrap "waiting for process to exit" (.exitError childExit))

/-- The exit code of the sandbox runner (`cmd/runner/main.go`): a wait error
that is directly an `*exec.ExitError` propagates the child's wait status;
any other failure exits 1; a nil wait error falls off `main` (exit 0). -/
def runnerMainExit (waitErr : Option GoError) : Nat :=
  match waitErr with
  | none => 0
  | some (.exitError status) => status
  | some _ => 1

/-- `errors.As(err, &*exec.ExitError)`: the first exit error reachable
through the `%w` wrap chain. -/
def errorsAsExitError : GoError → Option Nat
  | .exitError status => some status
  | .wrap _ inner => errorsAsExitError inner
  | _ => none

/-- Modelled from the spec: the executor entrypoint (not among the provided
sources) maps the build error to the process exit code — `0` on success, the
exact exit status of a failing `RUN` child found through the error chain,
and `1` for any other failure class ("propagate the exact exit status as the
builder's exit status; do not wrap"). -/
def builderExitCode (buildErr : Option GoError) : Nat :=
  match buildErr with
  | none => 0
  | some e =>
    match errorsAsExitError e with
    | some status => status
    | none => 1

/-! ## RUN cache mounts and the swap protocol (unnamed commands file) -/

/-- Modelled from the spec: the builder's directory (`config.KanikoDir`
falls back to the executable's directory, which is `/kaniko` in the shipped
image; the `KANIKO_DIR` override is irrelevant to the swap protocol). -/
def KanikoDir : String := "/kaniko"

/-- `config.KanikoCacheDir`: where `RUN --mount=type=cache` directories live. -/
def KanikoCacheDir : String := KanikoDir ++ "/caches/"

/-- `config.KanikoSwapDir`: the temporary directory used to swap cache and
target directories. -/
def KanikoSwapDir : String := KanikoDir ++ "/swap/"

/-- The component-stack step of `filepath.Clean`: drop empty and `.`
components; `..` pops a non-`..` component, disappears at the root, and
accumulates at the front of a relative path. -/
def cleanComps (rooted : Bool) : List (List Char) → List (List Char) → List (List Char)
  | stack, [] => stack
  | stack, c :: rest =>
    if c = [] ∨ c = ['.'] then cleanComps rooted stack rest
    else if c = ['.', '.'] then
      match stack with
      | top :: stack' =>
        if top = ['.', '.'] then cleanComps rooted (c :: (top :: stack')) rest
        else cleanComps rooted stack' rest
      | [] => if rooted then cleanComps rooted [] rest else cleanComps rooted [c] rest
    else cleanComps rooted (c :: stack) rest

/-- `filepath.Clean` (lexical cleaning, Unix rules). -/
def filepathClean (path : String) : String :=
  if path = "" then "."
  else
    let rooted := path.data.head? = some '/'
    let stack := cleanComps rooted [] (goSplitOnChar '/' path.data)
    let body := List.intercalate ['/'] stack.reverse
    if body = [] then (if rooted then "/" else ".")
    else if rooted then ⟨'/' :: body⟩ else ⟨body⟩

/-- `filepath.Join` of two elements. -/
def filepathJoin (a b : String) : String :=
  if a = "" then filepathClean b
  else if b = "" then filepathClean a
  else filepathClean (a ++ "/" ++ b)

/-- An abstract filesystem for the directory-level swap protocol: each
present directory path maps to its (opaque) contents of type `α`. -/
def FS (α : Type) := String → Option α

/-- `os.Rename` moving the tree at `src` to `dst`.  The embedding requires
the source to exist and the destination to be absent — the regime in which
every rename of the swap protocol runs (the swap directory is empty at
stage boundaries, and each rename's destination was vacated by the
preceding one). -/
def fsRename {α : Type} (fs : FS α) (src dst : String) : Except GoError (FS α) :=
  match fs src with
  | none => .error (.goError ("rename " ++ src ++ ": no such file or directory"))
  | some c =>
    match fs dst with
    | some _ => .error (.goError ("rename " ++ dst ++ ": file exists"))
    | none => .ok (fun p => if p = dst then some c else if p = src then none else fs p)

/-- `commands.swapDir`: exchange the directories at `pathA` and `pathB` by
three renames through the swap directory; empty path arguments are
rejected. -/
def swapDir {α : Type} (fs : FS α) (pathA pathB : String) : Except GoError (FS α) :=
  if pathA = "" ∨ pathB = "" then .error (.goError "paths must not be empty")
  else
    match fsRename fs pathA KanikoSwapDir with
    | .error e => .error (.wrap ("failed to rename (1) " ++ pathA ++ " -> " ++ KanikoSwapDir) e)
    | .ok fs1 =>
      match fsRename fs1 pathB pathA with
      | .error e => .error (.wrap ("failed to rename (2) " ++ pathB ++ " -> " ++ pathA) e)
      | .ok fs2 =>
        match fsRename fs2 KanikoSwapDir pathB with
        | .error e => .error (.wrap ("failed to rename (3) " ++ KanikoSwapDir ++ " -> " ++ pathB) e)
        | .ok fs3 => .ok fs3

/-- `os.MkdirAll` at the directory level: create the directory when absent. -/
def mkdirAllModel {α : Type} (emptyDir : α) (fs : FS α) (dir : String) : FS α :=
  match fs dir with
  | some _ => fs
  | none => fun p => if p = dir then some emptyDir else fs p

/-- `commands.ensureDir` at the directory level: create the target when
absent and report whether it was created (Go returns the topmost created
ancestor, whose deferred `RemoveAll` removes the target again; the model
tracks creation of the target itself). -/
def ensureDirModel {α : Type} (emptyDir : α) (fs : FS α) (target : String) :
    Bool × FS α :=
  match fs target with
  | some _ => (false, fs)
  | none => (true, fun p => if p = target then some emptyDir else fs p)

/-- `os.RemoveAll` at the directory level. -/
def removeAllModel {α : Type} (fs : FS α) (dir : String) : FS α :=
  fun p => if p = dir then none else fs p

/-- The per-fingerprint cache directory for a cache-mount target: the cache
root joined with the hash (hex SHA-256 in the source) of the cleaned target
path. -/
def cacheMountDir (hashHex : String → String) (target : String) : String :=
  filepathJoin KanikoCacheDir (hashHex (filepathClean target))

/-- The cache-mount portion of `commands.runCommandWithFlags` for one
`--mount=type=cache,target=T`: ensure the per-fingerprint cache directory
(keyed by `hashHex` of the cleaned target — hex SHA-256 in the source,
treated as an opaque function here) exists, ensure the target exists, swap
the cache directory into the target, run the child, and restore with the
inverse swap even when the child failed (deferred), removing the created
target afterwards (deferred first, so it runs last). -/
def runCacheMount {α : Type} (emptyDir : α) (hashHex : String → String)
    (child : FS α → Option GoError × FS α) (fs : FS α) (target : String) :
    Option GoError × FS α :=
  let cacheDir := cacheMountDir hashHex target
  let fs := mkdirAllModel emptyDir fs cacheDir
  let created := (ensureDirModel emptyDir fs target).1
  let fs := (ensureDirModel emptyDir fs target).2
  let finish := fun (err : Option GoError) (g : FS α) =>
    (err, if created then removeAllModel g target else g)
  match swapDir fs cacheDir target with
  | .error e => finish (some e) fs
  | .ok fs1 =>
    let childRes := child fs1
    match swapDir childRes.2 target cacheDir with
    | .error e => finish (some e) childRes.2
    | .ok fs3 => finish childRes.1 fs3

/-! ## The cache warmer (unnamed warmer file) -/

/-- The outcome of one `w.Local` cache lookup, classified the way
`Warmer.Warm` inspects it: nil error (found), `cache.IsExpired`, or any
other error (a miss, carried for possible reuse). -/
inductive LocalLookupResult where
  | found
  | expired
  | missed (e : GoError)
  deriving Repr, DecidableEq

/-- Whether a lookup outcome passes `err == nil || cache.IsExpired(err)`,
the condition under which `Warm` reports `AlreadyCachedErr`. -/
def isCachedResult : LocalLookupResult → Bool
  | .found => true
  | .expired => true
  | .missed _ => false

/-- An image reference as `name.ParseReference` classifies it: a digest
reference carries its digest string (`DigestStr`), anything else does not. -/
inductive ImageRef where
  | digestRef (image : String) (digestStr : String)
  | otherRef (image : String)
  deriving Repr, DecidableEq

/-- The collaborators of `Warmer.Warm`: the local cache source and the
remote registry (`w.Remote` followed by `img.Digest()`, yielding the
resolved platform-manifest digest string). -/
structure WarmerEnv where
  localLookup : String → LocalLookupResult
  remoteImage : String → Except GoError String

/-- The outcome of `Warmer.Warm`: `AlreadyCachedErr`, a successful warm
returning the resolved digest (the tar and manifest writes are modelled as
succeeding), or a failure. -/
inductive WarmResult where
  | alreadyCached
  | warmed (digest : String)
  | failed (e : GoError)
  deriving Repr, DecidableEq

/-- `Warmer.Warm`, instrumented with the number of local and remote lookups
it performs (returned alongside the result).  For a digest reference the
local cache is tried first; on a miss the key and miss result are kept, the
remote lookup resolves the digest, and the local lookup is retried under the
resolved digest unless it equals the kept key, in which case the kept miss
result is reused and the miss is final. -/
def WarmerWarm (env : WarmerEnv) (ref : ImageRef) (force : Bool) :
    WarmResult × Nat × Nat :=
  let imageName := match ref with | .digestRef img _ => img | .otherRef img => img
  let firstLookup : Option (LocalLookupResult × String) :=
    if force then none
    else match ref with
      | .digestRef _ d => some (env.localLookup d, d)
      | .otherRef _ => none
  match firstLookup with
  | some (r, d) =>
    if isCachedResult r then (.alreadyCached, 1, 0)
    else
      (match env.remoteImage imageName with
       | .error e => (.failed (.wrap ("failed to retrieve image: " ++ imageName) e), 1, 1)
       | .ok digest =>
         let second : LocalLookupResult × Nat :=
           if digest = d then (r, 1) else (env.localLookup digest, 2)
         if isCachedResult second.1 then (.alreadyCached, second.2, 1)
         else (.warmed digest, second.2, 1))
  | none =>
    match env.remoteImage imageName with
    | .error e => (.failed (.wrap ("failed to retrieve image: " ++ imageName) e), 0, 1)
    | .ok digest =>
      if force then (.warmed digest, 0, 1)
      else
        if isCachedResult (env.localLookup digest) then (.alreadyCached, 1, 1)
        else (.warmed digest, 1, 1)

def c6fs : FS Nat := fun p =>
  if p = "/t" then some 10 else if p = "/kaniko/caches/H" then some 20 else none

def c6child : FS Nat → Option GoError × FS Nat := fun g =>
  (some (.exitError 7), fun p => if p = "/t" then some 1 else g p)

def c7env : WarmerEnv :=
  { localLookup := fun k => if k = "sha256:aa" then .found else .missed (.goError "not found")
    remoteImage := fun _ => .ok "sha256:bb" }

/-- The outcome of one `cache.LocalSource` call as `executor.cachedImage`
classifies it: a cached image (identified by an opaque string), a
`cache.IsNotFound` error (kept for possible reuse), or any other error
(returned immediately). -/
inductive LocalImageResult where
  | image (img : String)
  | notFound (e : GoError)
  | failed (e : GoError)
  deriving Repr, DecidableEq

/-- The collaborators of `executor.cachedImage`. -/
structure CachedImageEnv where
  localSource : String → LocalImageResult
  remoteImage : String → Except GoError String

/-- `executor.cachedImage`, instrumented with the number of local and remote
lookups: a digest reference is looked up directly; a hit returns the image
and any error other than not-found is returned as is; on a not-found miss
the remote lookup resolves the digest and, when it equals the original key,
the original not-found error is returned without a second local lookup;
otherwise the local lookup is retried under the resolved digest. -/
def cachedImage (env : CachedImageEnv) (ref : ImageRef) :
    Except GoError String × Nat × Nat :=
  match ref with
  | .digestRef img d =>
    (match env.localSource d with
     | .image i => (.ok i, 1, 0)
     | .failed e => (.error e, 1, 0)
     | .notFound e =>
       match env.remoteImage img with
       | .error e' => (.error e', 1, 1)
       | .ok digest =>
         if digest = d then (.error e, 1, 1)
         else
           match env.localSource digest with
           | .image i => (.ok i, 2, 1)
           | .notFound e' => (.error e', 2, 1)
           | .failed e' => (.error e', 2, 1))
  | .otherRef img =>
    match env.remoteImage img with
    | .error e => (.error e, 0, 1)
    | .ok digest =>
      match env.localSource digest with
      | .image i => (.ok i, 1, 1)
      | .notFound e => (.error e, 1, 1)
      | .failed e => (.error e, 1, 1)

/-- A concrete `cachedImage` environment for the claim witnesses. -/
def c7imgEnv : CachedImageEnv :=
  { localSource := fun k => if k = "sha256:aa" then .image "IMG"
      else .notFound (.goError "not found")
    remoteImage := fun _ => .ok "sha256:bb" }

/-- A `cachedImage` environment whose remote lookup resolves to the original
digest key (the image-manifest case). -/
def c7imgEnv2 : CachedImageEnv :=
  { localSource := fun _ => .notFound (.goError "not found")
    remoteImage := fun _ => .ok "sha256:cc" }

theorem c8_part1 (q : Char) (s : List Char) (hq : q = '"' ∨ q = '\'') :
    extractValFromQuotes (q :: s ++ [q]) = .ok s := by
  have hq' : q = '\'' ∨ q = '"' := hq.symm
  have hlen : ¬ (q :: s ++ [q]).length < 2 := by simp
  have hleader : quoteLeader (q :: s ++ [q]) = [q] := by
    rcases hq with h | h <;> subst h <;> rfl
  have hlast : (q :: s ++ [q]).getLast? = some q := List.getLast?_concat _
  have htail : quoteTail 1 (q :: s ++ [q]) = [q] := by
    simp only [quoteTail]
    rw [if_pos (by norm_num : (1:Nat) < 2)]
    simp only [hlast]
    rcases hq with h | h <;> subst h <;> rfl
  unfold extractValFromQuotes
  rw [if_neg hlen, hleader]
  simp only [List.length_cons, List.length_nil]
  rw [htail]
  simp [extractValAux, List.dropLast_concat]

theorem c8_part2 (q : Char) (s : List Char) (hq : q = '"' ∨ q = '\'') :
    extractValFromQuotes ('\\' :: q :: s ++ ['\\', q]) = .ok ('\\' :: q :: s ++ ['\\', q]) := by
  have hlen : ¬ ('\\' :: q :: s ++ ['\\', q]).length < 2 := by simp
  have hleader : quoteLeader ('\\' :: q :: s ++ ['\\', q]) = ['\\', q] := by
    rcases hq with h | h <;> subst h <;> rfl
  have htail : quoteTail 2 ('\\' :: q :: s ++ ['\\', q]) = ['\\', q] := by
    simp only [quoteTail]
    rw [if_neg (by norm_num)]
    have : ('\\' :: q :: s ++ ['\\', q]).reverse = q :: '\\' :: (s.reverse ++ [q, '\\']) := by
      simp
    rw [this]
    rcases hq with h | h <;> subst h <;> rfl
  unfold extractValFromQuotes
  rw [if_neg hlen, hleader]
  simp only [List.length_cons, List.length_nil]
  rw [htail]
  simp [extractValAux]

theorem c8_part3 (q c : Char) (s : List Char) (hq : q = '"' ∨ q = '\'')
    (hc : ¬(c = '"' ∨ c = '\'')) :
    extractValFromQuotes (q :: s ++ [c]) =
      .error (.goError "quotes wrapping arg values must be matched") := by
  have hlen : ¬ (q :: s ++ [c]).length < 2 := by simp
  have hleader : quoteLeader (q :: s ++ [c]) = [q] := by
    rcases hq with h | h <;> subst h <;> rfl
  have hlast : (q :: s ++ [c]).getLast? = some c := List.getLast?_concat _
  have htail : quoteTail 1 (q :: s ++ [c]) = [] := by
    simp only [quoteTail]
    rw [if_pos (by norm_num : (1:Nat) < 2)]
    simp only [hlast]
    rw [if_neg (by tauto)]
  unfold extractValFromQuotes
  rw [if_neg hlen, hleader]
  simp only [List.length_cons, List.length_nil]
  rw [htail]
  have hne : q ≠ '"' ∨ q ≠ '\'' → True := fun _ => trivial
  have : ([q] : List Char) ≠ [] := by simp
  simp [extractValAux, this]

theorem c8_part4 (q c : Char) (s : List Char) (hq : q = '"' ∨ q = '\'')
    (hc : ¬(c = '"' ∨ c = '\'' ∨ c = '\\')) :
    extractValFromQuotes (c :: s ++ [q]) =
      .error (.goError "quotes wrapping arg values must be matched") := by
  push_neg at hc
  obtain ⟨h1, h2, h3⟩ := hc
  have hlen : ¬ (c :: s ++ [q]).length < 2 := by simp
  have hleader : quoteLeader (c :: s ++ [q]) = [] := by
    simp only [List.cons_append]
    dsimp only [quoteLeader]
    rw [if_neg (by tauto), if_neg h3]
  have hlast : (c :: s ++ [q]).getLast? = some q := List.getLast?_concat _
  have htail : quoteTail 0 (c :: s ++ [q]) = [q] := by
    simp only [quoteTail]
    rw [if_pos (by norm_num : (0:Nat) < 2)]
    simp only [hlast]
    rcases hq with h | h <;> subst h <;> rfl
  unfold extractValFromQuotes
  rw [if_neg hlen, hleader]
  simp only [List.length_nil]
  rw [htail]
  simp [extractValAux]

theorem c8_part5 (q1 q2 : Char) (s : List Char) (hq1 : q1 = '"' ∨ q1 = '\'')
    (hq2 : q2 = '"' ∨ q2 = '\'') (hne : q1 ≠ q2) :
    extractValFromQuotes (q1 :: s ++ [q2]) =
      .error (.goError "quotes wrapping arg values must be matched") := by
  have hlen : ¬ (q1 :: s ++ [q2]).length < 2 := by simp
  have hleader : quoteLeader (q1 :: s ++ [q2]) = [q1] := by
    rcases hq1 with h | h <;> subst h <;> rfl
  have hlast : (q1 :: s ++ [q2]).getLast? = some q2 := List.getLast?_concat _
  have htail : quoteTail 1 (q1 :: s ++ [q2]) = [q2] := by
    simp only [quoteTail]
    rw [if_pos (by norm_num : (1:Nat) < 2)]
    simp only [hlast]
    rcases hq2 with h | h <;> subst h <;> rfl
  unfold extractValFromQuotes
  rw [if_neg hlen, hleader]
  simp only [List.length_cons, List.length_nil]
  rw [htail]
  simp [extractValAux, hne]

theorem mapGet_update_ne (k v k' : String) (h : k' ≠ k) (t : List (String × String)) :
    mapGet (t.map (fun p => if p.1 = k then (k, v) else p)) k' = mapGet t k' := by
  induction t with
  | nil => rfl
  | cons a t ih =>
    have hk' : ¬ k = k' := fun hh => h hh.symm
    by_cases ha : a.1 = k
    · simp only [List.map_cons, if_pos ha, mapGet, List.find?]
      have h1 : ((k, v).1 = k') = false := by simp [hk']
      have h2 : (a.1 = k') = false := by simp [ha, hk']
      simp only [h1, h2, mapGet] at ih ⊢
      exact ih
    · simp only [List.map_cons, if_neg ha, mapGet, List.find?]
      by_cases hak : a.1 = k'
      · simp [hak]
      · simp only [show (a.1 = k') = false by simp [hak]]
        exact ih

theorem mapGet_update_eq (k v : String) (t : List (String × String)) :
    mapGet (t.map (fun p => if p.1 = k then (k, v) else p)) k =
      if (t.any fun p => p.1 = k) then some v else none := by
  induction t with
  | nil => rfl
  | cons a t ih =>
    by_cases ha : a.1 = k
    · simp [mapGet, List.find?, if_pos ha, ha]
    · simp only [List.map_cons, if_neg ha, List.any_cons, mapGet, List.find?]
      simp only [show (a.1 = k) = false by simp [ha], Bool.false_or]
      exact ih

theorem mapGet_append (m1 m2 : List (String × String)) (k : String) :
    mapGet (m1 ++ m2) k = (mapGet m1 k).or (mapGet m2 k) := by
  induction m1 with
  | nil => simp [mapGet]
  | cons a t ih =>
    by_cases ha : a.1 = k
    · simp [mapGet, List.find?, ha]
    · simp only [List.cons_append, mapGet, List.find?, show (a.1 = k) = false by simp [ha]]
      exact ih

theorem mapGet_none_of_not_any (m : List (String × String)) (k : String)
    (h : (m.any fun p => p.1 = k) = false) : mapGet m k = none := by
  induction m with
  | nil => rfl
  | cons a t ih =>
    simp only [List.any_cons, Bool.or_eq_false_iff] at h
    simp only [mapGet, List.find?, h.1]
    exact ih h.2

theorem mapGet_mapSet (m : List (String × String)) (k v k' : String) :
    mapGet (mapSet m k v) k' = if k' = k then some v else mapGet m k' := by
  unfold mapSet
  by_cases h : (m.any fun p => p.1 = k)
  · rw [if_pos h]
    by_cases hk : k' = k
    · subst hk; rw [if_pos rfl, mapGet_update_eq, if_pos h]
    · rw [if_neg hk, mapGet_update_ne _ _ _ hk]
  · rw [if_neg h, mapGet_append]
    by_cases hk : k' = k
    · subst hk
      rw [mapGet_none_of_not_any m _ (by simp only [Bool.not_eq_true] at h; exact h)]
      simp [mapGet, List.find?]
    · rw [if_neg hk]
      have hk' : ¬ k = k' := fun hh => hk hh.symm
      have : mapGet [(k, v)] k' = none := by simp [mapGet, List.find?, hk']
      rw [this]
      cases mapGet m k' <;> rfl

theorem findSome?_concat {α β} (f : α → Option β) (l : List α) (a : α) :
    (l ++ [a]).findSome? f = (l.findSome? f).or (f a) := by
  induction l with
  | nil => simp [List.findSome?]; cases f a <;> rfl
  | cons x t ih =>
    simp only [List.cons_append, List.findSome?]
    cases f x <;> simp [ih]

theorem foldl_mapGet {α} (st : List (String × String) → α → List (String × String))
    (cf : α → Option String) (K : String)
    (h : ∀ m a, mapGet (st m a) K = ((cf a).or (mapGet m K))) :
    ∀ (bs : List α) (m), mapGet (bs.foldl st m) K = (bs.reverse.findSome? cf).or (mapGet m K) := by
  intro bs
  induction bs with
  | nil => intro m; simp [List.findSome?]
  | cons a t ih =>
    intro m
    simp only [List.foldl_cons, List.reverse_cons, findSome?_concat, ih, h]
    cases t.reverse.findSome? cf <;> cases cf a <;> cases mapGet m K <;> rfl

theorem foldl_nested {α} (st : List (String × String) → α → List (String × String)) :
    ∀ (L : List (List α)) (m : List (String × String)),
      L.foldl (fun m l => l.foldl st m) m = (L.flatMap id).foldl st m := by
  intro L
  induction L with
  | nil => intro m; rfl
  | cons l t ih => intro m; simp only [List.foldl_cons, List.flatMap_cons, id,
      List.foldl_append, ih]

theorem mapGet_buildArgStep (K : String) (m : List (String × String)) (a : String) :
    mapGet (buildArgStep m a) K = (buildArgContrib K a).or (mapGet m K) := by
  unfold buildArgStep buildArgContrib
  cases h : goSplitEq a with
  | nil => simp
  | cons k t =>
    cases t with
    | nil => simp
    | cons v rest =>
      dsimp only
      by_cases hv : v = ""
      · simp [hv]
      · rw [if_neg hv, mapGet_mapSet]
        by_cases hk : k = K
        · subst hk; simp [hv]
        · have hKk : ¬ K = k := fun hh => hk hh.symm
          simp [hk, hv, hKk]

theorem mapGet_metaArgStep (K : String) (m : List (String × String))
    (arg : String × Option String) :
    mapGet (metaArgStep m arg) K =
      ((if arg.1 = K then arg.2 else none).or (mapGet m K)) := by
  obtain ⟨k0, vo⟩ := arg
  unfold metaArgStep
  cases vo with
  | none => simp
  | some v =>
    dsimp only
    rw [mapGet_mapSet]
    by_cases hk : k0 = K
    · subst hk; simp
    · have hKk : ¬ K = k0 := fun hh => hk hh.symm
      simp [hk, hKk]

theorem mapGet_unifyArgsMap (metaArgs : List ArgCommand) (buildArgs : List String)
    (K : String) :
    mapGet (unifyArgsMap metaArgs buildArgs) K =
      (clVal buildArgs K).or (metaVal metaArgs K) := by
  unfold unifyArgsMap clVal metaVal
  rw [foldl_nested]
  rw [foldl_mapGet buildArgStep (buildArgContrib K) K (mapGet_buildArgStep K) buildArgs]
  rw [foldl_mapGet metaArgStep (fun arg => if arg.1 = K then arg.2 else none) K
    (mapGet_metaArgStep K) (metaArgs.flatMap id) []]
  have : mapGet [] K = none := rfl
  rw [this]
  cases h : (metaArgs.flatMap id).reverse.findSome? (fun arg => if arg.1 = K then arg.2 else none) <;>
    cases h2 : buildArgs.reverse.findSome? (buildArgContrib K) <;> rfl

theorem buildArgStep_skipped (m : List (String × String)) (a : String)
    (h : buildArgSkipped a) : buildArgStep m a = m := by
  unfold buildArgSkipped at h
  unfold buildArgStep
  cases hs : goSplitEq a with
  | nil => rfl
  | cons k t =>
    cases t with
    | nil => rfl
    | cons v rest =>
      rw [hs] at h
      dsimp only at h ⊢
      rw [if_pos h]

/-- C9 (amended): a `--build-arg` entry whose split on every `=` lacks a
non-empty second segment (`K=`, `K`, and also `K==b`) never overrides or
introduces an argument; the unified map binds `K` to the second split
segment of the last contributing command-line entry when one exists
(truncating the value at the next `=`), and otherwise to the last declared
meta-arg default; the formatted list is `K=V` over that map. -/
theorem c9_unify_args (metaArgs : List ArgCommand) (pre post buildArgs : List String)
    (a K : String) :
    (buildArgSkipped a →
      unifyArgs metaArgs (pre ++ a :: post) = unifyArgs metaArgs (pre ++ post)) ∧
    mapGet (unifyArgsMap metaArgs buildArgs) K =
      (clVal buildArgs K).or (metaVal metaArgs K) ∧
    unifyArgs metaArgs buildArgs =
      (unifyArgsMap metaArgs buildArgs).map (fun p => p.1 ++ "=" ++ p.2) := by
  refine ⟨fun h => ?_, mapGet_unifyArgsMap metaArgs buildArgs K, rfl⟩
  unfold unifyArgs unifyArgsMap
  simp only [List.foldl_append, List.foldl_cons, buildArgStep_skipped _ a h]

theorem c9_unify_args_witness :
    buildArgSkipped "K=" ∧
    unifyArgs [[("K", some "M")]] (([] : List String) ++ "K=" :: ["J=5"]) =
      unifyArgs [[("K", some "M")]] ([] ++ ["J=5"]) ∧
    mapGet (unifyArgsMap [[("K", some "M")]] ["K=a=b"]) "K" =
      (clVal ["K=a=b"] "K").or (metaVal [[("K", some "M")]] "K") := by
  have hskip : buildArgSkipped "K=" := by
    have hs : goSplitEq "K=" = ["K", ""] := by decide
    unfold buildArgSkipped
    rw [hs]
  exact ⟨hskip,
    (c9_unify_args [[("K", some "M")]] [] ["J=5"] ["K=a=b"] "K=" "K").1 hskip,
    (c9_unify_args [[("K", some "M")]] [] ["J=5"] ["K=a=b"] "K=" "K").2.1⟩

/-- C9, counterexample: the build-arg `K==b` has the non-empty command-line
value `=b` yet introduces nothing (its second split segment is empty), and
with a meta default for `K` the build-arg `K=a=b` yields the entry `K=a`
rather than the full command-line value `K=a=b` — the claim's "non-empty
command-line value wins" fails on values containing `=`. -/
theorem c9_counterexample :
    unifyArgs [] ["K==b"] = [] ∧
    unifyArgs [[("K", some "M")]] ["K=a=b"] = ["K=a"] := by
  constructor <;> decide

/-- C8: meta-arg quote stripping removes exactly one leading and one
trailing quote when the value is enclosed in matching unescaped single or
double quotes; a value enclosed in escaped quotes is returned unchanged; a
value whose leading and trailing quote markers do not match (an unmatched
leading or trailing quote, or two different quote characters) is an error. -/
theorem c8_extract_val_from_quotes :
    (∀ (q : Char) (s : List Char), q = '"' ∨ q = '\'' →
        extractValFromQuotes (q :: s ++ [q]) = .ok s) ∧
    (∀ (q : Char) (s : List Char), q = '"' ∨ q = '\'' →
        extractValFromQuotes ('\\' :: q :: s ++ ['\\', q]) =
          .ok ('\\' :: q :: s ++ ['\\', q])) ∧
    (∀ (q c : Char) (s : List Char), q = '"' ∨ q = '\'' → ¬(c = '"' ∨ c = '\'') →
        extractValFromQuotes (q :: s ++ [c]) =
          .error (.goError "quotes wrapping arg values must be matched")) ∧
    (∀ (q c : Char) (s : List Char), q = '"' ∨ q = '\'' →
        ¬(c = '"' ∨ c = '\'' ∨ c = '\\') →
        extractValFromQuotes (c :: s ++ [q]) =
          .error (.goError "quotes wrapping arg values must be matched")) ∧
    (∀ (q1 q2 : Char) (s : List Char), q1 = '"' ∨ q1 = '\'' → q2 = '"' ∨ q2 = '\'' →
        q1 ≠ q2 →
        extractValFromQuotes (q1 :: s ++ [q2]) =
          .error (.goError "quotes wrapping arg values must be matched")) :=
  ⟨c8_part1, c8_part2, c8_part3, c8_part4, c8_part5⟩

theorem c8_extract_val_from_quotes_witness :
    extractValFromQuotes ('"' :: ['x'] ++ ['"']) = .ok ['x'] ∧
    extractValFromQuotes ('\\' :: '"' :: ['x'] ++ ['\\', '"']) =
      .ok ('\\' :: '"' :: ['x'] ++ ['\\', '"']) ∧
    extractValFromQuotes ('"' :: ['x'] ++ ['\'']) =
      .error (.goError "quotes wrapping arg values must be matched") ∧
    extractValFromQuotes ('"' :: ['x'] ++ ['y']) =
      .error (.goError "quotes wrapping arg values must be matched") ∧
    extractValFromQuotes ('y' :: ['x'] ++ ['"']) =
      .error (.goError "quotes wrapping arg values must be matched") :=
  ⟨c8_extract_val_from_quotes.1 '"' ['x'] (Or.inl rfl),
   c8_extract_val_from_quotes.2.1 '"' ['x'] (Or.inl rfl),
   c8_extract_val_from_quotes.2.2.2.2 '"' '\'' ['x'] (Or.inl rfl) (Or.inr rfl)
     (by decide),
   c8_extract_val_from_quotes.2.2.1 '"' 'y' ['x'] (Or.inl rfl) (by decide),
   c8_extract_val_from_quotes.2.2.2.1 '"' 'y' ['x'] (Or.inl rfl) (by decide)⟩

/-- C10: `EnvBoolDefault` is total and returns the default both when the
variable is unset and when `strconv.ParseBool` rejects its value (such as
`yes`); `EnvBool` equals `EnvBoolDefault` with default `false`. -/
theorem c10_env_bool_default (env : String → Option String) (key : String) (dflt : Bool) :
    (env key = none → EnvBoolDefault env key dflt = dflt) ∧
    (∀ v, env key = some v → goParseBool v = none → EnvBoolDefault env key dflt = dflt) ∧
    EnvBool env key = EnvBoolDefault env key false ∧
    goParseBool "yes" = none := by
  refine ⟨fun h => ?_, fun v hv hp => ?_, rfl, by decide⟩
  · simp [EnvBoolDefault, h]
  · simp [EnvBoolDefault, hv, hp]

theorem c10_env_bool_default_witness :
    EnvBoolDefault (fun _ => none) "FF_KANIKO_SQUASH_STAGES" true = true ∧
    EnvBoolDefault (fun _ => some "yes") "FF_KANIKO_SQUASH_STAGES" true = true :=
  ⟨(c10_env_bool_default (fun _ => none) "FF_KANIKO_SQUASH_STAGES" true).1 rfl,
   (c10_env_bool_default (fun _ => some "yes") "FF_KANIKO_SQUASH_STAGES" true).2.1
     "yes" rfl (by decide)⟩

theorem listGetD_set {α} (l : List α) (i j : Nat) (v d : α) :
    (l.set i v).getD j d = if i = j ∧ j < l.length then v else l.getD j d := by
  induction l generalizing i j with
  | nil => simp [List.getD]
  | cons a t ih =>
    cases i with
    | zero =>
      cases j with
      | zero => simp [List.getD]
      | succ j => simp [List.getD]
    | succ i =>
      cases j with
      | zero => simp [List.getD]
      | succ j =>
        show (t.set i v).getD j d = if i + 1 = j + 1 ∧ j + 1 < t.length + 1 then v
          else t.getD j d
        rw [ih i j]
        have hiff : (i + 1 = j + 1 ∧ j + 1 < t.length + 1) ↔ (i = j ∧ j < t.length) := by
          omega
        rw [if_congr hiff rfl rfl]

theorem squashStep_zero_preserved (copyDeps : List Nat)
    (st : List KanikoStage × List Nat) (i bi : Nat) (h : st.2.getD bi 0 = 0) :
    (squashStep copyDeps st i).2.getD bi 0 = 0 := by
  unfold squashStep
  obtain ⟨ks, deps⟩ := st
  dsimp only at h ⊢
  by_cases h1 : 0 < deps.getD i 0
  · rw [if_pos h1]
    by_cases h2 : (ks.getD i default).baseImageStoredLocally = true ∧
        deps.getD (ks.getD i default).baseImageIndex.toNat 0 = 1 ∧
        copyDeps.getD (ks.getD i default).baseImageIndex.toNat 0 = 0
    · rw [if_pos h2]
      dsimp only
      rw [listGetD_set]
      split
      · rfl
      · exact h
    · rw [if_neg h2]; exact h
  · rw [if_neg h1]; exact h

theorem squashPass_zero_preserved (copyDeps : List Nat) (rest : List Nat)
    (st : List KanikoStage × List Nat) (bi : Nat) (h : st.2.getD bi 0 = 0) :
    (rest.foldl (squashStep copyDeps) st).2.getD bi 0 = 0 := by
  induction rest generalizing st with
  | nil => exact h
  | cons i t ih =>
    rw [List.foldl_cons]
    exact ih _ (squashStep_zero_preserved copyDeps st i bi h)

theorem not_mem_keptIndices {n : Nat} {deps copyDeps : List Nat} {i : Nat}
    (hd : deps.getD i 0 = 0) (hc : copyDeps.getD i 0 = 0) :
    i ∉ keptIndices n deps copyDeps := by
  unfold keptIndices
  intro hmem
  rw [List.mem_filter] at hmem
  rw [hd, hc] at hmem
  simp at hmem

theorem mem_compactStages {ks : List KanikoStage} {deps copyDeps : List Nat}
    {s : KanikoStage} (h : s ∈ compactStages ks deps copyDeps) :
    ∃ i, i < ks.length ∧ (0 < deps.getD i 0 ∨ 0 < copyDeps.getD i 0) ∧
      s = { ks.getD i default with saveStage := decide (0 < deps.getD i 0) } := by
  unfold compactStages keptIndices at h
  rw [List.mem_map] at h
  obtain ⟨i, hi, hs⟩ := h
  rw [List.mem_filter, List.mem_range] at hi
  refine ⟨i, hi.1, ?_, hs.symm⟩
  have := hi.2
  simp only [Bool.or_eq_true, decide_eq_true_eq] at this
  exact this

theorem makeFull_ok_elim {w : PlannerWorld} {opts : KanikoOptions}
    {stages : List Stage} {metaArgs : List ArgCommand}
    {res : List KanikoStage} {deps copyDeps : List Nat}
    (h : makeKanikoStagesFull w opts stages metaArgs = .ok (res, deps, copyDeps)) :
    ∃ st : PlanState, (res, deps, copyDeps) = finishStages w.env opts st := by
  unfold makeKanikoStagesFull at h
  cases hp : planAndCount w opts stages metaArgs with
  | error e => rw [hp] at h; simp [Bind.bind, Except.bind] at h
  | ok pair =>
    rw [hp] at h
    obtain ⟨t, st⟩ := pair
    simp only [Bind.bind, Except.bind, pure, Except.pure, Except.ok.injEq] at h
    exact ⟨st, h.symm⟩

theorem makeFull_ok_compact {w : PlannerWorld} {opts : KanikoOptions}
    {stages : List Stage} {metaArgs : List ArgCommand}
    {res : List KanikoStage} {deps copyDeps : List Nat}
    (hskip : opts.skipUnusedStages = true)
    (h : makeKanikoStagesFull w opts stages metaArgs = .ok (res, deps, copyDeps)) :
    ∃ ks : List KanikoStage, res = compactStages ks deps copyDeps := by
  obtain ⟨st, hfin⟩ := makeFull_ok_elim h
  unfold finishStages at hfin
  rw [if_pos hskip] at hfin
  set sq := if opts.skipUnusedStages ∧ EnvBoolDefault w.env "FF_KANIKO_SQUASH_STAGES" true then
      (List.range st.kanikoStages.length).foldl (squashStep st.copyDependencies)
        (st.kanikoStages, st.stagesDependencies)
    else (st.kanikoStages, st.stagesDependencies) with hsq
  have h1 : res = compactStages sq.1 sq.2 st.copyDependencies :=
    congrArg Prod.fst hfin
  have h2 : deps = sq.2 := congrArg (fun p => p.2.1) hfin
  have h3 : copyDeps = st.copyDependencies := congrArg (fun p => p.2.2) hfin
  exact ⟨sq.1, by rw [h1, h2, h3]⟩

theorem incAt_ok (a : List Nat) (i : Int) (r : List Nat) (h : incAt a i = .ok r) :
    0 ≤ i ∧ i.toNat < a.length ∧ r = a.set i.toNat (a.getD i.toNat 0 + 1) := by
  unfold incAt at h
  split at h
  · next hc =>
    refine ⟨hc.1, hc.2, ?_⟩
    cases h
    rfl
  · cases h

theorem processStage_deps (w : PlannerWorld) (opts : KanikoOptions)
    (stages : List Stage) (metaArgs : List ArgCommand) (targetIdx : Nat)
    (st : PlanState) (i : Nat) (st' : PlanState)
    (h : processStage w opts stages metaArgs targetIdx st i = .ok st') :
    st'.stagesDependencies = st.stagesDependencies ∨
    (baseImageIndex i stages ≠ -1 ∧
     st'.stagesDependencies = st.stagesDependencies.set (baseImageIndex i stages).toNat
       (st.stagesDependencies.getD (baseImageIndex i stages).toNat 0 + 1)) := by
  unfold processStage at h
  split at h
  · cases h
    left; rfl
  · dsimp only at h
    split at h
    · cases h
    · next onBuild _ =>
      split at h
      · cases h
      · next cmds _ =>
        split at h
        · cases h
        · next st2 hstE =>
          cases h
          dsimp only
          split at hstE
          · split at hstE
            · cases hstE
            · next deps hdeps =>
              split at hstE
              · cases hstE
              · next copies hcopies =>
                cases hstE
                dsimp only
                split at hdeps
                · next hb =>
                  right
                  obtain ⟨_, _, hr⟩ := incAt_ok _ _ _ hdeps
                  exact ⟨hb, hr⟩
                · cases hdeps
                  left; rfl
          · cases hstE
            left; rfl

/-- C1, counterexample: on `FROM alpine AS a / FROM scratch + COPY --from=0`
with pruning on, the planner emits stage 0 with `save-stage = false` even
though the later surviving stage references it via `COPY --from=0`
(`save-stage` follows FROM-base references, not `COPY --from` references),
so the claimed equivalence evaluates to `false` on the emitted list. -/
theorem c1_counterexample :
    (MakeKanikoStages trivialWorld ⟨"", [], true⟩
        [⟨"a", "alpine", "", [], "", "", ""⟩,
         ⟨"", "scratch", "", [Command.copyCmd "0"], "", "", ""⟩] []).map
      saveStageIffCopyReferencedB = .ok false ∧
    (MakeKanikoStages trivialWorld ⟨"", [], true⟩
        [⟨"a", "alpine", "", [], "", "", ""⟩,
         ⟨"", "scratch", "", [Command.copyCmd "0"], "", "", ""⟩] []).map
      (fun l => l.map fun s => (s.index, s.saveStage)) = .ok [(0, false), (1, true)] := by
  constructor <;> decide

/-- C1, amended: with `skip-unused-stages` on, every `ResolvedStage` emitted
by `MakeKanikoStages` has `save-stage = true` iff the final FROM-base
reference count (`stage_refs`) at its slot is positive; `COPY --from`
references keep a stage alive but do not set `save-stage`.  The second
conjunct locates the provenance of `stage_refs`: a main-loop step either
leaves the vector unchanged or increments exactly the slot of the processed
stage's FROM-base index (the target seed is set before the loop, and the
squash pass only zeroes slots). -/
theorem c1_save_stage_amended (w : PlannerWorld) (opts : KanikoOptions)
    (stages : List Stage) (metaArgs : List ArgCommand)
    (res : List KanikoStage) (deps copyDeps : List Nat)
    (hskip : opts.skipUnusedStages = true)
    (h : makeKanikoStagesFull w opts stages metaArgs = .ok (res, deps, copyDeps)) :
    (∃ ks : List KanikoStage,
      res = compactStages ks deps copyDeps ∧
      ∀ s ∈ res, ∃ i, i < ks.length ∧
        s = { ks.getD i default with saveStage := decide (0 < deps.getD i 0) } ∧
        (s.saveStage = true ↔ 0 < deps.getD i 0)) ∧
    (∀ (targetIdx : Nat) (st : PlanState) (i : Nat) (st' : PlanState),
      processStage w opts stages metaArgs targetIdx st i = .ok st' →
      st'.stagesDependencies = st.stagesDependencies ∨
      (baseImageIndex i stages ≠ -1 ∧
       st'.stagesDependencies = st.stagesDependencies.set (baseImageIndex i stages).toNat
         (st.stagesDependencies.getD (baseImageIndex i stages).toNat 0 + 1))) := by
  refine ⟨?_, fun targetIdx st i st' hp =>
    processStage_deps w opts stages metaArgs targetIdx st i st' hp⟩
  obtain ⟨ks, hres⟩ := makeFull_ok_compact hskip h
  refine ⟨ks, hres, fun s hs => ?_⟩
  rw [hres] at hs
  obtain ⟨i, hlen, _, hval⟩ := mem_compactStages hs
  refine ⟨i, hlen, hval, ?_⟩
  rw [hval]
  simp

theorem c1_save_stage_amended_witness :
    (∃ ks : List KanikoStage,
      [(⟨⟨"", "scratch", "", [], "", "", ""⟩, -1, false, true, true, [], 0⟩ : KanikoStage)] =
        compactStages ks [1] [0] ∧
      ∀ s ∈ [(⟨⟨"", "scratch", "", [], "", "", ""⟩, -1, false, true, true, [], 0⟩ : KanikoStage)],
        ∃ i, i < ks.length ∧
          s = { ks.getD i default with saveStage := decide (0 < ([1] : List Nat).getD i 0) } ∧
          (s.saveStage = true ↔ 0 < ([1] : List Nat).getD i 0)) ∧
    (∀ (targetIdx : Nat) (st : PlanState) (i : Nat) (st' : PlanState),
      processStage trivialWorld ⟨"", [], true⟩ [⟨"", "scratch", "", [], "", "", ""⟩] []
        targetIdx st i = .ok st' →
      st'.stagesDependencies = st.stagesDependencies ∨
      (baseImageIndex i [⟨"", "scratch", "", [], "", "", ""⟩] ≠ -1 ∧
       st'.stagesDependencies = st.stagesDependencies.set
         (baseImageIndex i [⟨"", "scratch", "", [], "", "", ""⟩]).toNat
         (st.stagesDependencies.getD
           (baseImageIndex i [⟨"", "scratch", "", [], "", "", ""⟩]).toNat 0 + 1))) :=
  c1_save_stage_amended trivialWorld ⟨"", [], true⟩ [⟨"", "scratch", "", [], "", "", ""⟩]
    [] _ [1] [0] rfl (by decide)

/-- C2: with `skip-unused-stages` on, every stage emitted by
`MakeKanikoStages` comes from a slot whose final `stage_refs + copy_refs`
count is positive, and a slot with both counts zero is not among the kept
indices of the compaction; the further conjuncts verify the claim's
mechanism — the descending loop skips stage `i` exactly when both its
counts are zero (returning the state unchanged), and the seed write puts
`stage_refs[target] = 1` before the loop. -/
theorem c2_prune_compact_invariant (w : PlannerWorld) (opts : KanikoOptions)
    (stages : List Stage) (metaArgs : List ArgCommand)
    (res : List KanikoStage) (deps copyDeps : List Nat)
    (hskip : opts.skipUnusedStages = true)
    (h : makeKanikoStagesFull w opts stages metaArgs = .ok (res, deps, copyDeps)) :
    (∃ ks : List KanikoStage,
      res = compactStages ks deps copyDeps ∧
      (∀ s ∈ res, ∃ i, i < ks.length ∧ 0 < deps.getD i 0 + copyDeps.getD i 0 ∧
        s = { ks.getD i default with saveStage := decide (0 < deps.getD i 0) }) ∧
      (∀ i, deps.getD i 0 = 0 → copyDeps.getD i 0 = 0 →
        i ∉ keptIndices ks.length deps copyDeps)) ∧
    (∀ (targetIdx : Nat) (st : PlanState) (i : Nat),
      st.stagesDependencies.getD i 0 = 0 → st.copyDependencies.getD i 0 = 0 →
      processStage w opts stages metaArgs targetIdx st i = .ok st) ∧
    (∀ (n t : Nat), t < n →
      setAt (List.replicate n 0) (Int.ofNat t) 1 = .ok ((List.replicate n 0).set t 1) ∧
      ((List.replicate n (0 : Nat)).set t 1).getD t 0 = 1) := by
  refine ⟨?_, fun targetIdx st i h1 h2 => ?_, fun n t ht => ⟨?_, ?_⟩⟩
  · obtain ⟨ks, hres⟩ := makeFull_ok_compact hskip h
    refine ⟨ks, hres, fun s hs => ?_, fun i hd hc => not_mem_keptIndices hd hc⟩
    rw [hres] at hs
    obtain ⟨i, hlen, hpos, hval⟩ := mem_compactStages hs
    exact ⟨i, hlen, by omega, hval⟩
  · unfold processStage
    rw [if_pos ⟨h1, h2, hskip⟩]
  · unfold setAt
    rw [if_pos ⟨Int.natCast_nonneg t, by simpa using ht⟩]
    simp [Int.toNat_ofNat]
  · rw [listGetD_set]
    simp [ht]

theorem c2_prune_compact_invariant_witness :
    (∃ ks : List KanikoStage,
      [(⟨⟨"", "scratch", "", [], "", "", ""⟩, -1, false, true, true, [], 0⟩ : KanikoStage)] =
        compactStages ks [1] [0] ∧
      (∀ s ∈ [(⟨⟨"", "scratch", "", [], "", "", ""⟩, -1, false, true, true, [], 0⟩ : KanikoStage)],
        ∃ i, i < ks.length ∧ 0 < ([1] : List Nat).getD i 0 + ([0] : List Nat).getD i 0 ∧
          s = { ks.getD i default with saveStage := decide (0 < ([1] : List Nat).getD i 0) }) ∧
      (∀ i, ([1] : List Nat).getD i 0 = 0 → ([0] : List Nat).getD i 0 = 0 →
        i ∉ keptIndices ks.length [1] [0])) ∧
    (∀ (targetIdx : Nat) (st : PlanState) (i : Nat),
      st.stagesDependencies.getD i 0 = 0 → st.copyDependencies.getD i 0 = 0 →
      processStage trivialWorld ⟨"", [], true⟩ [⟨"", "scratch", "", [], "", "", ""⟩] []
        targetIdx st i = .ok st) ∧
    (∀ (n t : Nat), t < n →
      setAt (List.replicate n 0) (Int.ofNat t) 1 = .ok ((List.replicate n 0).set t 1) ∧
      ((List.replicate n (0 : Nat)).set t 1).getD t 0 = 1) :=
  c2_prune_compact_invariant trivialWorld ⟨"", [], true⟩
    [⟨"", "scratch", "", [], "", "", ""⟩] [] _ [1] [0] rfl (by decide)

/-- C3, counterexample: the original claim triggers the merge when "s
survives" — in this specification, `stage_refs[s] + copy_refs[s] > 0` — but
the code's guard is `stage_refs[s] > 0` alone.  With base `b` (slot 0,
`stage_refs = 1`, `copy_refs = 0`, stored locally) and consumer `s` (slot 1,
surviving only via `COPY --from`: `stage_refs = 0`, `copy_refs = 1`), every
condition of the claim holds, yet the squash step leaves the state
unchanged rather than producing the merge; on the full three-stage pipeline
`FROM alpine AS b / FROM b AS s / FROM scratch + COPY --from=1` the planner
emits `b` un-merged and `s` with only its own command. -/
theorem c3_squash_counterexample :
    0 < ([1, 0] : List Nat).getD 1 0 + ([0, 1] : List Nat).getD 1 0 ∧
    c3Consumer.baseImageStoredLocally = true ∧
    c3Consumer.baseImageIndex = 0 ∧
    ([1, 0] : List Nat).getD 0 0 = 1 ∧
    ([0, 1] : List Nat).getD 0 0 = 0 ∧
    squashStep [0, 1] ([c3Base, c3Consumer], [1, 0]) 1 = ([c3Base, c3Consumer], [1, 0]) ∧
    squashStep [0, 1] ([c3Base, c3Consumer], [1, 0]) 1 ≠
      (([c3Base, c3Consumer] : List KanikoStage).set 1 (squash c3Base c3Consumer),
       ([1, 0] : List Nat).set 0 0) ∧
    (MakeKanikoStages trivialWorld ⟨"", [], true⟩ c3PipelineStages []).map
        (fun l => l.map fun st => (st.index, st.stage.commands)) =
      .ok [(0, [Command.otherCmd "A"]), (1, [Command.otherCmd "B"]),
           (2, [Command.copyCmd "1"])] := by
  refine ⟨by decide, by decide, by decide, by decide, by decide, by decide, by decide,
    by decide⟩

/-- C3, amended: in the squash pass, stage `i` absorbs its base `b` exactly
when `i` still has a positive *stage*-reference count (`stage_refs[i] > 0` —
a consumer surviving only via `COPY --from` is not merged), its base is a
locally stored previous stage, and `stage_refs[b] = 1` with
`copy_refs[b] = 0`; the merged stage keeps `b`'s base name, platform and
base-image index and concatenates `b`'s commands minus `b`'s `ONBUILD`
declarations with `i`'s commands; `stage_refs[b]` is zeroed, stays zero for
the rest of the pass, and a slot with both counts zero is dropped by the
compaction, so `b` is absent from the result and no other surviving stage
references it; when squashing is enabled `finishStages` runs exactly this
pass before compacting. -/
theorem c3_squash_single_consumer :
    (∀ (copyDeps deps : List Nat) (ks : List KanikoStage) (i : Nat),
        0 < deps.getD i 0 →
        (ks.getD i default).baseImageStoredLocally = true →
        deps.getD (ks.getD i default).baseImageIndex.toNat 0 = 1 →
        copyDeps.getD (ks.getD i default).baseImageIndex.toNat 0 = 0 →
        squashStep copyDeps (ks, deps) i =
          (ks.set i (squash (ks.getD (ks.getD i default).baseImageIndex.toNat default)
              (ks.getD i default)),
            deps.set (ks.getD i default).baseImageIndex.toNat 0)) ∧
    (∀ (copyDeps deps : List Nat) (ks : List KanikoStage) (i : Nat),
        ¬(0 < deps.getD i 0 ∧ (ks.getD i default).baseImageStoredLocally = true ∧
            deps.getD (ks.getD i default).baseImageIndex.toNat 0 = 1 ∧
            copyDeps.getD (ks.getD i default).baseImageIndex.toNat 0 = 0) →
        squashStep copyDeps (ks, deps) i = (ks, deps)) ∧
    (∀ a b : KanikoStage,
        (squash a b).stage.commands = filterOnBuild a.stage.commands ++ b.stage.commands ∧
        (squash a b).stage.baseName = a.stage.baseName ∧
        (squash a b).stage.platform = a.stage.platform ∧
        (squash a b).baseImageIndex = a.baseImageIndex ∧
        (squash a b).baseImageStoredLocally = a.baseImageStoredLocally ∧
        (squash a b).index = b.index ∧
        (squash a b).final = b.final) ∧
    (∀ (copyDeps : List Nat) (rest : List Nat) (st : List KanikoStage × List Nat)
        (bi : Nat), st.2.getD bi 0 = 0 →
        (rest.foldl (squashStep copyDeps) st).2.getD bi 0 = 0) ∧
    (∀ (n : Nat) (deps copyDeps : List Nat) (bi : Nat),
        deps.getD bi 0 = 0 → copyDeps.getD bi 0 = 0 →
        bi ∉ keptIndices n deps copyDeps) ∧
    (∀ (env : String → Option String) (opts : KanikoOptions) (st : PlanState),
        opts.skipUnusedStages = true →
        EnvBoolDefault env "FF_KANIKO_SQUASH_STAGES" true = true →
        finishStages env opts st =
          (compactStages
              ((List.range st.kanikoStages.length).foldl (squashStep st.copyDependencies)
                (st.kanikoStages, st.stagesDependencies)).1
              ((List.range st.kanikoStages.length).foldl (squashStep st.copyDependencies)
                (st.kanikoStages, st.stagesDependencies)).2
              st.copyDependencies,
            ((List.range st.kanikoStages.length).foldl (squashStep st.copyDependencies)
              (st.kanikoStages, st.stagesDependencies)).2,
            st.copyDependencies)) := by
  refine ⟨?_, ?_, ?_, ?_, ?_, ?_⟩
  · intro copyDeps deps ks i h1 h2 h3 h4
    unfold squashStep
    dsimp only
    rw [if_pos h1, if_pos ⟨h2, h3, h4⟩]
  · intro copyDeps deps ks i hneg
    unfold squashStep
    dsimp only
    by_cases h1 : 0 < deps.getD i 0
    · rw [if_pos h1, if_neg (fun hc => hneg ⟨h1, hc⟩)]
    · rw [if_neg h1]
  · intro a b
    exact ⟨rfl, rfl, rfl, rfl, rfl, rfl, rfl⟩
  · intro copyDeps rest st bi h
    exact squashPass_zero_preserved copyDeps rest st bi h
  · intro n deps copyDeps bi hd hc
    exact not_mem_keptIndices hd hc
  · intro env opts st h1 h2
    simp [finishStages, h1, h2]

theorem c3_squash_single_consumer_witness :
    squashStep [0, 0]
        ([(⟨⟨"base", "scratch", "", [Command.onbuildCmd "RUN z", Command.otherCmd "A"],
            "", "", ""⟩, -1, false, true, false, [], 0⟩ : KanikoStage),
          (⟨⟨"", "base", "", [Command.otherCmd "B"], "", "", ""⟩, 0, true, false, true,
            [], 1⟩ : KanikoStage)], [1, 1]) 1 =
      (([(⟨⟨"base", "scratch", "", [Command.onbuildCmd "RUN z", Command.otherCmd "A"],
            "", "", ""⟩, -1, false, true, false, [], 0⟩ : KanikoStage),
          (⟨⟨"", "base", "", [Command.otherCmd "B"], "", "", ""⟩, 0, true, false, true,
            [], 1⟩ : KanikoStage)] : List KanikoStage).set 1
          (squash
            (⟨⟨"base", "scratch", "", [Command.onbuildCmd "RUN z", Command.otherCmd "A"],
              "", "", ""⟩, -1, false, true, false, [], 0⟩ : KanikoStage)
            (⟨⟨"", "base", "", [Command.otherCmd "B"], "", "", ""⟩, 0, true, false, true,
              [], 1⟩ : KanikoStage)),
        ([1, 1] : List Nat).set 0 0) :=
  c3_squash_single_consumer.1 [0, 0] [1, 1]
    [⟨⟨"base", "scratch", "", [Command.onbuildCmd "RUN z", Command.otherCmd "A"],
        "", "", ""⟩, -1, false, true, false, [], 0⟩,
     ⟨⟨"", "base", "", [Command.otherCmd "B"], "", "", ""⟩, 0, true, false, true, [], 1⟩]
    1 (by decide) (by decide) (by decide) (by decide)

/-- C4: the `COPY --from` reference counting of `MakeKanikoStages` panics
(index out of range) on an out-of-range literal digit string such as
`--from=9` in a three-stage Dockerfile, instead of treating it as an
external image reference; a digit string naming a valid index is counted at
that index, and an unknown name falls through the stage-name lookup and
contributes nothing (the non-faulting cases behave as the claim states). -/
theorem c4_copy_from_out_of_range :
    makeKanikoStagesFull trivialWorld ⟨"", [], true⟩
        [⟨"a", "alpine", "", [], "", "", ""⟩, ⟨"b", "alpine", "", [], "", "", ""⟩,
         ⟨"", "scratch", "", [Command.copyCmd "9"], "", "", ""⟩] [] =
      .error (.runtimePanic "index out of range") ∧
    (makeKanikoStagesFull trivialWorld ⟨"", [], true⟩
        [⟨"a", "alpine", "", [], "", "", ""⟩, ⟨"b", "alpine", "", [], "", "", ""⟩,
         ⟨"", "scratch", "", [Command.copyCmd "1", Command.copyCmd "debian"], "", "", ""⟩]
        []).map (fun r => (r.2.1, r.2.2)) = .ok ([0, 0, 1], [0, 1, 0]) ∧
    (makeKanikoStagesFull trivialWorld ⟨"", [], true⟩
        [⟨"a", "alpine", "", [], "", "", ""⟩, ⟨"b", "alpine", "", [], "", "", ""⟩,
         ⟨"", "scratch", "", [Command.copyCmd "A"], "", "", ""⟩]
        []).map (fun r => (r.2.1, r.2.2)) = .ok ([0, 0, 1], [1, 0, 0]) := by
  refine ⟨by decide, by decide, by decide⟩

theorem fsRename_ok {α : Type} (fs : FS α) (src dst : String) (c : α)
    (hs : fs src = some c) (hd : fs dst = none) :
    fsRename fs src dst =
      .ok (fun p => if p = dst then some c else if p = src then none else fs p) := by
  unfold fsRename
  rw [hs, hd]

theorem swapDir_ok {α : Type} (fs : FS α) (a b : String) (ca cb : α)
    (ha : fs a = some ca) (hb : fs b = some cb) (hswap : fs KanikoSwapDir = none)
    (hab : a ≠ b) (haS : a ≠ KanikoSwapDir) (hbS : b ≠ KanikoSwapDir)
    (hae : a ≠ "") (hbe : b ≠ "") :
    swapDir fs a b = .ok (fun p =>
      if p = a then some cb else if p = b then some ca
      else if p = KanikoSwapDir then none else fs p) := by
  unfold swapDir
  rw [if_neg (by tauto : ¬(a = "" ∨ b = ""))]
  rw [fsRename_ok fs a KanikoSwapDir ca ha hswap]
  dsimp only
  rw [fsRename_ok _ b a cb (by simp [hbS, Ne.symm hab, hb]) (by simp [haS])]
  dsimp only
  rw [fsRename_ok _ KanikoSwapDir b ca
    (by simp [Ne.symm haS, Ne.symm hbS]) (by simp [Ne.symm hab])]
  dsimp only
  congr 1
  funext p
  by_cases hpa : p = a
  · subst hpa; simp [hab, haS]
  · by_cases hpb : p = b
    · subst hpb; simp [hab, hbS, Ne.symm hab]
    · by_cases hpS : p = KanikoSwapDir
      · subst hpS; simp [Ne.symm haS, Ne.symm hbS]
      · simp [hpa, hpb, hpS]

theorem filepathClean_ne_empty (p : String) : filepathClean p ≠ "" := by
  unfold filepathClean
  split
  · decide
  · dsimp only
    split
    · split <;> decide
    · split
      · intro h
        have := congrArg String.data h
        simp at this
      · next hbody _ =>
        intro h
        exact hbody (congrArg String.data h)

theorem filepathJoin_ne_empty (a b : String) : filepathJoin a b ≠ "" := by
  unfold filepathJoin
  split
  · exact filepathClean_ne_empty b
  · split
    · exact filepathClean_ne_empty a
    · exact filepathClean_ne_empty _

theorem cacheMountDir_ne_empty (hashHex : String → String) (target : String) :
    cacheMountDir hashHex target ≠ "" :=
  filepathJoin_ne_empty _ _

theorem c6_protocol {α : Type} (hashHex : String → String)
    (child : FS α → Option GoError × FS α) (fs : FS α) (target : String)
    (t0 c0 emptyDir : α)
    (ht : fs target = some t0)
    (hc : fs (cacheMountDir hashHex target) = some c0)
    (hS : fs KanikoSwapDir = none)
    (htc : target ≠ cacheMountDir hashHex target)
    (htS : target ≠ KanikoSwapDir)
    (hcS : cacheMountDir hashHex target ≠ KanikoSwapDir)
    (hte : target ≠ "")
    (hchild1 : ∀ g p, p ≠ target → (child g).2 p = g p)
    (hchild2 : ∀ g c, g target = some c → ∃ cOut, (child g).2 target = some cOut) :
    ∃ fs1 : FS α,
      swapDir fs (cacheMountDir hashHex target) target = .ok fs1 ∧
      fs1 target = some c0 ∧
      (runCacheMount emptyDir hashHex child fs target).1 = (child fs1).1 ∧
      (runCacheMount emptyDir hashHex child fs target).2 target = some t0 ∧
      (runCacheMount emptyDir hashHex child fs target).2 (cacheMountDir hashHex target) =
        (child fs1).2 target ∧
      (runCacheMount emptyDir hashHex child fs target).2 KanikoSwapDir = none := by
  set cacheDir := cacheMountDir hashHex target with hcd
  have hce : cacheDir ≠ "" := cacheMountDir_ne_empty hashHex target
  set fs1 : FS α := (fun p =>
      if p = cacheDir then some t0 else if p = target then some c0
      else if p = KanikoSwapDir then none else fs p) with hfs1
  have hswap1 : swapDir fs cacheDir target = .ok fs1 :=
    swapDir_ok fs cacheDir target c0 t0 hc ht hS (Ne.symm htc) hcS htS hce hte
  have hfs1t : fs1 target = some c0 := by
    rw [hfs1]; simp [htc]
  obtain ⟨cOut, hcout⟩ := hchild2 fs1 c0 hfs1t
  have hcd1 : (child fs1).2 cacheDir = some t0 := by
    rw [hchild1 fs1 cacheDir (Ne.symm htc), hfs1]
    simp
  have hcswap : (child fs1).2 KanikoSwapDir = none := by
    rw [hchild1 fs1 KanikoSwapDir (Ne.symm htS), hfs1]
    simp [Ne.symm hcS, Ne.symm htS]
  set fs3 : FS α := (fun p =>
      if p = target then some t0 else if p = cacheDir then some cOut
      else if p = KanikoSwapDir then none else (child fs1).2 p) with hfs3
  have hswap2 : swapDir (child fs1).2 target cacheDir = .ok fs3 :=
    swapDir_ok (child fs1).2 target cacheDir cOut t0 hcout hcd1 hcswap htc htS hcS hte hce
  have hmk : mkdirAllModel emptyDir fs cacheDir = fs := by
    unfold mkdirAllModel; rw [hc]
  have hens : ensureDirModel emptyDir fs target = (false, fs) := by
    unfold ensureDirModel; rw [ht]
  have hrun : runCacheMount emptyDir hashHex child fs target = ((child fs1).1, fs3) := by
    unfold runCacheMount
    dsimp only
    rw [← hcd, hmk, hens]
    dsimp only
    rw [hswap1]
    dsimp only
    rw [hswap2]
    simp
  refine ⟨fs1, hswap1, hfs1t, ?_, ?_, ?_, ?_⟩
  · rw [hrun]
  · rw [hrun, hfs3]; simp
  · rw [hrun, hfs3]; simp [Ne.symm htc, hcout]
  · rw [hrun, hfs3]; simp [Ne.symm htS, Ne.symm hcS]

theorem swapDir_involution {α : Type} (fs : FS α) (a b : String) (ca cb : α)
    (ha : fs a = some ca) (hb : fs b = some cb) (hS : fs KanikoSwapDir = none)
    (hab : a ≠ b) (haS : a ≠ KanikoSwapDir) (hbS : b ≠ KanikoSwapDir)
    (hae : a ≠ "") (hbe : b ≠ "") :
    ∃ fs1 fs2 : FS α,
      swapDir fs a b = .ok fs1 ∧ fs1 a = some cb ∧ fs1 b = some ca ∧
      swapDir fs1 b a = .ok fs2 ∧ ∀ p, fs2 p = fs p := by
  set fs1 : FS α := (fun p =>
      if p = a then some cb else if p = b then some ca
      else if p = KanikoSwapDir then none else fs p) with hfs1
  have h1 : swapDir fs a b = .ok fs1 :=
    swapDir_ok fs a b ca cb ha hb hS hab haS hbS hae hbe
  have hb' : fs1 b = some ca := by rw [hfs1]; simp [Ne.symm hab]
  have ha' : fs1 a = some cb := by rw [hfs1]; simp
  have hS' : fs1 KanikoSwapDir = none := by rw [hfs1]; simp [Ne.symm haS, Ne.symm hbS]
  set fs2 : FS α := (fun p =>
      if p = b then some cb else if p = a then some ca
      else if p = KanikoSwapDir then none else fs1 p) with hfs2
  have h2 : swapDir fs1 b a = .ok fs2 :=
    swapDir_ok fs1 b a ca cb hb' ha' hS' (Ne.symm hab) hbS haS hbe hae
  refine ⟨fs1, fs2, h1, ha', hb', h2, fun p => ?_⟩
  rw [hfs2, hfs1]
  by_cases hpb : p = b
  · subst hpb; simp [hb]
  · by_cases hpa : p = a
    · subst hpa; simp [ha, hpb]
    · by_cases hpS : p = KanikoSwapDir
      · subst hpS; simp [hS, Ne.symm haS, Ne.symm hbS]
      · simp [hpa, hpb, hpS]

theorem swapDir_empty_rejected {α : Type} (fs : FS α) (x : String) :
    swapDir fs "" x = .error (.goError "paths must not be empty") ∧
    swapDir fs x "" = .error (.goError "paths must not be empty") := by
  constructor <;> (unfold swapDir; rw [if_pos (by simp)])

/-- C5: a `RUN` child exiting with non-zero status `K` makes
`runCommandInExec` return the wait error wrapped with `%w` (keeping the
`exec.ExitError` reachable), and the builder's exit code — the spec-modelled
entrypoint extracting the deepest exit error — is exactly `K`, not a generic
failure code; the sandbox runner (`cmd/runner/main.go`) likewise exits with
the child's exact status. -/
theorem c5_run_exit_code_propagation (K : Nat) (hK : K ≠ 0) :
    builderExitCode (runCommandInExecResult K) = K ∧
    runnerMainExit (some (.exitError K)) = K ∧
    builderExitCode (runCommandInExecResult 0) = 0 := by
  refine ⟨?_, rfl, rfl⟩
  unfold builderExitCode runCommandInExecResult
  rw [if_neg hK]
  dsimp only [errorsAsExitError]

theorem c5_run_exit_code_propagation_witness :
    builderExitCode (runCommandInExecResult 42) = 42 ∧
    runnerMainExit (some (.exitError 42)) = 42 ∧
    builderExitCode (runCommandInExecResult 0) = 0 :=
  c5_run_exit_code_propagation 42 (by decide)

/-- C7: for a digest reference found in the local cache, `Warmer.Warm`
reports `AlreadyCachedErr` after one local lookup and no remote lookup; on
a local miss it performs the remote lookup and retries the local lookup
under the resolved platform-manifest digest when that digest differs from
the original key; when the resolved digest equals the original key it
reuses the original miss result without a second local lookup, and the
miss is final (the image is warmed); the executor-side `cachedImage`
behaves the same way and literally returns the original not-found error. -/
theorem c7_warmer_warm (env : WarmerEnv) (img d digest : String) (e : GoError) :
    (env.localLookup d = .found →
      WarmerWarm env (.digestRef img d) false = (.alreadyCached, 1, 0)) ∧
    (env.localLookup d = .missed e → env.remoteImage img = .ok digest → digest ≠ d →
      WarmerWarm env (.digestRef img d) false =
        ((if isCachedResult (env.localLookup digest) then .alreadyCached
          else .warmed digest), 2, 1)) ∧
    (env.localLookup d = .missed e → env.remoteImage img = .ok d →
      WarmerWarm env (.digestRef img d) false = (.warmed d, 1, 1)) ∧
    (∀ (env2 : CachedImageEnv) (i : String), env2.localSource d = .image i →
      cachedImage env2 (.digestRef img d) = (.ok i, 1, 0)) ∧
    (∀ env2 : CachedImageEnv, env2.localSource d = .notFound e →
      env2.remoteImage img = .ok d →
      cachedImage env2 (.digestRef img d) = (.error e, 1, 1)) := by
  refine ⟨fun h1 => ?_, fun h1 h2 h3 => ?_, fun h1 h2 => ?_,
    fun env2 i h1 => ?_, fun env2 h1 h2 => ?_⟩
  · simp [WarmerWarm, h1, isCachedResult]
  · simp only [WarmerWarm, h1, h2, isCachedResult, Bool.false_eq_true, if_false]
    rw [if_neg h3]
    split <;> rfl
  · simp [WarmerWarm, h1, h2, isCachedResult]
  · simp [cachedImage, h1]
  · simp [cachedImage, h1, h2]

/-- C6: for `RUN --mount=type=cache,target=T` the executor ensures the
cache directory keyed by the (hex-SHA-256) hash of the cleaned target
exists, swaps it into `T` by three renames through the swap directory
before spawning the child, and restores it with the inverse swap afterwards
even when the child failed — the child's error is propagated, `T` holds its
original contents again, and the cache directory receives what the child
left at `T`; `swapDir a b` followed by `swapDir b a` is the identity on the
filesystem; `swapDir` rejects empty path arguments. -/
theorem c6_run_cache_mount_swap :
    (∀ (α : Type) (hashHex : String → String)
        (child : FS α → Option GoError × FS α) (fs : FS α) (target : String)
        (t0 c0 emptyDir : α),
      fs target = some t0 →
      fs (cacheMountDir hashHex target) = some c0 →
      fs KanikoSwapDir = none →
      target ≠ cacheMountDir hashHex target →
      target ≠ KanikoSwapDir →
      cacheMountDir hashHex target ≠ KanikoSwapDir →
      target ≠ "" →
      (∀ g p, p ≠ target → (child g).2 p = g p) →
      (∀ g c, g target = some c → ∃ cOut, (child g).2 target = some cOut) →
      ∃ fs1 : FS α,
        swapDir fs (cacheMountDir hashHex target) target = .ok fs1 ∧
        fs1 target = some c0 ∧
        (runCacheMount emptyDir hashHex child fs target).1 = (child fs1).1 ∧
        (runCacheMount emptyDir hashHex child fs target).2 target = some t0 ∧
        (runCacheMount emptyDir hashHex child fs target).2 (cacheMountDir hashHex target) =
          (child fs1).2 target ∧
        (runCacheMount emptyDir hashHex child fs target).2 KanikoSwapDir = none) ∧
    (∀ (α : Type) (fs : FS α) (a b : String) (ca cb : α),
      fs a = some ca → fs b = some cb → fs KanikoSwapDir = none →
      a ≠ b → a ≠ KanikoSwapDir → b ≠ KanikoSwapDir → a ≠ "" → b ≠ "" →
      ∃ fs1 fs2 : FS α,
        swapDir fs a b = .ok fs1 ∧ fs1 a = some cb ∧ fs1 b = some ca ∧
        swapDir fs1 b a = .ok fs2 ∧ ∀ p, fs2 p = fs p) ∧
    (∀ (α : Type) (fs : FS α) (x : String),
      swapDir fs "" x = .error (.goError "paths must not be empty") ∧
      swapDir fs x "" = .error (.goError "paths must not be empty")) :=
  ⟨fun _ hashHex child fs target t0 c0 emptyDir h1 h2 h3 h4 h5 h6 h7 h8 h9 =>
      c6_protocol hashHex child fs target t0 c0 emptyDir h1 h2 h3 h4 h5 h6 h7 h8 h9,
   fun _ fs a b ca cb h1 h2 h3 h4 h5 h6 h7 h8 =>
      swapDir_involution fs a b ca cb h1 h2 h3 h4 h5 h6 h7 h8,
   fun _ fs x => swapDir_empty_rejected fs x⟩

theorem c6_run_cache_mount_swap_witness :
    ∃ fs1 : FS Nat,
      swapDir c6fs (cacheMountDir (fun _ => "H") "/t") "/t" = .ok fs1 ∧
      fs1 "/t" = some 20 ∧
      (runCacheMount 0 (fun _ => "H") c6child c6fs "/t").1 = (c6child fs1).1 ∧
      (runCacheMount 0 (fun _ => "H") c6child c6fs "/t").2 "/t" = some 10 ∧
      (runCacheMount 0 (fun _ => "H") c6child c6fs "/t").2
        (cacheMountDir (fun _ => "H") "/t") = (c6child fs1).2 "/t" ∧
      (runCacheMount 0 (fun _ => "H") c6child c6fs "/t").2 KanikoSwapDir = none :=
  c6_run_cache_mount_swap.1 Nat (fun _ => "H") c6child c6fs "/t" 10 20 0
    (by decide) (by decide) (by decide) (by decide) (by decide) (by decide) (by decide)
    (fun g p hp => by simp [c6child, hp])
    (fun g c _ => ⟨1, by simp [c6child]⟩)

theorem c7_warmer_warm_witness :
    WarmerWarm c7env (.digestRef "img" "sha256:aa") false = (.alreadyCached, 1, 0) ∧
    WarmerWarm c7env (.digestRef "img" "sha256:cc") false =
      ((if isCachedResult (c7env.localLookup "sha256:bb") then .alreadyCached
        else .warmed "sha256:bb"), 2, 1) ∧
    WarmerWarm { c7env with remoteImage := fun _ => .ok "sha256:cc" }
      (.digestRef "img" "sha256:cc") false = (.warmed "sha256:cc", 1, 1) ∧
    cachedImage c7imgEnv (.digestRef "img" "sha256:aa") = (.ok "IMG", 1, 0) ∧
    cachedImage c7imgEnv2 (.digestRef "img" "sha256:cc") =
      (.error (.goError "not found"), 1, 1) :=
  ⟨(c7_warmer_warm c7env "img" "sha256:aa" "sha256:bb" (.goError "not found")).1 (by decide),
   (c7_warmer_warm c7env "img" "sha256:cc" "sha256:bb" (.goError "not found")).2.1
     (by decide) (by decide) (by decide),
   (c7_warmer_warm { c7env with remoteImage := fun _ => .ok "sha256:cc" } "img"
       "sha256:cc" "sha256:cc" (.goError "not found")).2.2.1 (by decide) (by decide),
   (c7_warmer_warm c7env "img" "sha256:aa" "sha256:bb" (.goError "not found")).2.2.2.1
     c7imgEnv "IMG" (by decide),
   (c7_warmer_warm { c7env with remoteImage := fun _ => .ok "sha256:cc" } "img"
       "sha256:cc" "sha256:cc" (.goError "not found")).2.2.2.2
     c7imgEnv2 (by decide) (by decide)⟩
